import Mathlib

/-!
# testutil/helper.go: AssertEqual and GetUser

A shallow embedding of the comparison helper `AssertEqual` and of the fixture
builder `GetUser` of `src/testutil/helper.go`, with the properties stated about
them.

Go values that reach `AssertEqual` through `interface{}` are modelled by the type
`Value`: nil, booleans, `int64`, `int8`, strings, `time.Time`, pointers, slices
and structs, nested to any depth.  The library functions the
helper calls (`fmt.Sprint`, `reflect.DeepEqual`, `reflect.Indirect`,
`Type.ConvertibleTo`, `Value.Convert`, `time.Time.Round`, ...) are modelled on
that universe.  What the helper obtains from declarations outside the file
(method sets of user types, the textual renderings of `time.Time`, the Unicode
upper-case table) is collected in `Env`.

A run of `AssertEqual` yields the list of its `t.Errorf` reports, each with the
names of the subtests (`t.Run`) it was made in, or the panic that stopped it.
`GetUser` reads the clock; the readings are a parameter and the number of
readings made is passed along as state.
-/

namespace Testutil

/-! ## Go types and values -/

/-- Dynamic types of the modelled universe.  A struct type is identified by its
name (its field list is declared outside `helper.go`; `Env.sameFields` tells
which struct types have identical field lists), a slice type by its name (empty
for an unnamed type) and element type. -/
inductive GoType where
  | bool
  | int64
  | int8
  | string
  | time
  | iface
  | ptr (elem : GoType)
  | slice (name : String) (elem : GoType)
  | struct (name : String)
  deriving DecidableEq, Repr

/-- A `time.Time`: the instant in nanoseconds since the Unix epoch, the optional
monotonic clock reading and the identity of the location. -/
structure Time where
  nanos : Int
  mono : Option Int
  loc : String
  deriving DecidableEq, Repr

/-- Values held by an `interface{}`.  `nil` is the nil interface; `nilPtr` is a
typed nil pointer; `ptr` is a non-nil pointer with its address and pointee (for
the element type `iface` the pointee is the dynamic value of the interface and
may be `nil`); a slice records whether it is the nil slice. -/
inductive Value where
  | nil
  | bool (b : Bool)
  | int64 (n : Int)
  | int8 (n : Int)
  | str (s : String)
  | time (t : Time)
  | nilPtr (elem : GoType)
  | ptr (elem : GoType) (addr : Nat) (target : Value)
  | slice (name : String) (elem : GoType) (isNil : Bool) (xs : List Value)
  | struct (name : String) (fields : List (String × Value))

/-- Results a `driver.Valuer` may return (`driver.Value`): nil or a scalar. -/
inductive DriverValue where
  | null
  | bool (b : Bool)
  | int64 (n : Int)
  | str (s : String)
  | time (t : Time)
  deriving DecidableEq, Repr

/-- A `driver.Value` as an `interface{}` value. -/
def DriverValue.toValue : DriverValue → Value
  | .null => .nil
  | .bool b => .bool b
  | .int64 n => .int64 n
  | .str s => .str s
  | .time t => .time t

/-- Declarations the helper depends on that live outside `helper.go`:
`isUpper` is `unicode.IsUpper`; `valuer` gives, by type name, the `Value()`
methods (value receivers) of the user types; `stringer` gives the methods that
`fmt` calls to render a value (`String()` or `Error()`) declared with a value
receiver, `ptrStringer` those declared with a pointer receiver: the text
returned for a nil receiver (`none` when the call panics, and `fmt` prints
`<nil>`) and the text for a receiver that points to the given value;
`sameFields` tells whether two struct types have identical field lists, so that
each converts to the other; `timeString` is `time.Time.String`, `timeRaw` the
field-by-field rendering of a `time.Time` that `fmt` prints when it may not call
methods; `formatUTC s` is `Format("2006-01-02T15:04:05Z07:00")` of the UTC time
at Unix second `s`. -/
structure Env where
  isUpper : Char → Bool
  valuer : String → Option (Value → DriverValue)
  stringer : String → Option (Value → String)
  ptrStringer : String → Option (Option String × (Value → String))
  sameFields : String → String → Bool
  timeString : Time → String
  timeRaw : Time → String
  formatUTC : Int → String

/-- Dynamic type of a value, `none` for the nil interface
(`reflect.ValueOf(x).Type()`). -/
def Value.typeOf : Value → Option GoType
  | .nil => none
  | .bool _ => some .bool
  | .int64 _ => some .int64
  | .int8 _ => some .int8
  | .str _ => some .string
  | .time _ => some .time
  | .nilPtr e => some (.ptr e)
  | .ptr e _ _ => some (.ptr e)
  | .slice n e _ _ => some (.slice n e)
  | .struct n _ => some (.struct n)

/-- Name of a defined type that can carry methods, if the type is one. -/
def GoType.methodName : GoType → Option String
  | .struct n => if n = "" then none else some n
  | .slice n _ => if n = "" then none else some n
  | _ => none

/-- Whether `fmt` prints a pointer to this type as `&` followed by the pointee
(array, slice, struct or map pointee at depth 0). -/
def GoType.isComposite : GoType → Bool
  | .struct _ => true
  | .slice _ _ => true
  | .time => true
  | _ => false

/-- The function `ast.IsExported`: the first rune of the name is upper case. -/
def isExported (env : Env) (name : String) : Bool :=
  match name.data with
  | [] => false
  | c :: _ => env.isUpper c

/-! ## fmt.Sprint -/

/-- Hexadecimal rendering of an address, as `fmt` prints a pointer. -/
def hexAddr (a : Nat) : String :=
  "0x" ++ String.mk (Nat.toDigits 16 a)

/-- The `String()` method applicable to a value of the given type, if any. -/
def stringerOf (env : Env) (t : GoType) : Option (Value → String) :=
  match t.methodName with
  | some n => env.stringer n
  | none => none

/-- Whether values of the type implement `fmt.Stringer` (`time.Time` does). -/
def hasStringer (env : Env) (t : GoType) : Bool :=
  t == GoType.time || (stringerOf env t).isSome

/-- The rendering method declared with a pointer receiver on the given pointee
type, if any. -/
def ptrStringerOf (env : Env) (t : GoType) : Option (Option String × (Value → String)) :=
  match t.methodName with
  | some n => env.ptrStringer n
  | none => none

mutual
/-- The printer `fmt.Sprint` on one operand.  `meth` tells whether `fmt` may call
methods on the value (false below an unexported struct field); `top` is true at
depth 0.  A pointer has the methods declared on the pointer type and those of
its pointee type.  A method with a pointer receiver is called on a nil pointer
too; a method with a value receiver panics there and `fmt` prints `<nil>`. -/
def sprintV (env : Env) (meth top : Bool) : Value → String
  | .nil => "<nil>"
  | .bool b => if b then "true" else "false"
  | .int64 n => toString n
  | .int8 n => toString n
  | .str s => s
  | .time t => if meth then env.timeString t else env.timeRaw t
  | .nilPtr e =>
    match (if meth then ptrStringerOf env e else none) with
    | some m => m.1.getD "<nil>"
    | none => "<nil>"
  | .ptr e a target =>
    match (if meth then ptrStringerOf env e else none) with
    | some m => m.2 target
    | none =>
      if meth && hasStringer env e then sprintV env true false target
      else if top && e.isComposite then "&" ++ sprintV env meth false target
      else hexAddr a
  | .slice n e isNil xs =>
    match (if meth then stringerOf env (.slice n e) else none) with
    | some f => f (.slice n e isNil xs)
    | none => "[" ++ sprintL env meth xs ++ "]"
  | .struct n fs =>
    match (if meth then stringerOf env (.struct n) else none) with
    | some f => f (.struct n fs)
    | none => "\x7b" ++ sprintF env meth fs ++ "\x7d"
/-- Elements of a slice, separated by spaces. -/
def sprintL (env : Env) (meth : Bool) : List Value → String
  | [] => ""
  | x :: xs => sprintV env meth false x ++ (if xs.isEmpty then "" else " ") ++ sprintL env meth xs
/-- Fields of a struct, separated by spaces; methods are not called below an
unexported field. -/
def sprintF (env : Env) (meth : Bool) : List (String × Value) → String
  | [] => ""
  | (n, x) :: fs =>
    sprintV env (meth && isExported env n) false x ++ (if fs.isEmpty then "" else " ")
      ++ sprintF env meth fs
end

/-- The call `fmt.Sprint(x)`. -/
def Sprint (env : Env) (x : Value) : String :=
  sprintV env true true x

/-! ## reflect.DeepEqual -/

mutual
/-- The function `reflect.DeepEqual` on two interface values. -/
def DeepEqual : Value → Value → Bool
  | .nil, .nil => true
  | .bool a, .bool b => a == b
  | .int64 a, .int64 b => a == b
  | .int8 a, .int8 b => a == b
  | .str a, .str b => a == b
  | .time a, .time b => a == b
  | .nilPtr e1, .nilPtr e2 => e1 == e2
  | .ptr e1 a1 t1, .ptr e2 a2 t2 => e1 == e2 && (a1 == a2 || DeepEqual t1 t2)
  | .slice n1 e1 nil1 xs, .slice n2 e2 nil2 ys =>
    n1 == n2 && e1 == e2 && nil1 == nil2 && DeepEqualL xs ys
  | .struct n1 fs, .struct n2 gs => n1 == n2 && DeepEqualF fs gs
  | _, _ => false
/-- Element-wise deep equality of two slices; the lengths must agree. -/
def DeepEqualL : List Value → List Value → Bool
  | [], [] => true
  | x :: xs, y :: ys => DeepEqual x y && DeepEqualL xs ys
  | _, _ => false
/-- Field-wise deep equality of two structs of one type. -/
def DeepEqualF : List (String × Value) → List (String × Value) → Bool
  | [], [] => true
  | (_, x) :: fs, (_, y) :: gs => DeepEqual x y && DeepEqualF fs gs
  | _, _ => false
end

/-! ## reflect helpers used by AssertEqual -/

/-- The test `reflect.Indirect(reflect.ValueOf(x)).IsValid()`. -/
def indirectValid : Value → Bool
  | .nil => false
  | .nilPtr _ => false
  | _ => true

/-- Why an evaluation did not produce a report: a run-time panic of the Go
code, or the recursion budget of the model ran out. -/
inductive Fault where
  | panic (what : String)
  | fuel
  deriving DecidableEq, Repr

/-- The `Value()` method reachable from a value through the type assertion
`x.(driver.Valuer)`: `none` when the assertion fails; a pointer has the methods
of its pointee type, and calling one through a nil pointer panics. -/
def valuerOf (env : Env) : Value → Option (Except Fault DriverValue)
  | .struct n fs =>
    match (GoType.struct n).methodName.bind env.valuer with
    | some f => some (.ok (f (.struct n fs)))
    | none => none
  | .slice n e isNil xs =>
    match (GoType.slice n e).methodName.bind env.valuer with
    | some f => some (.ok (f (.slice n e isNil xs)))
    | none => none
  | .ptr e _ target =>
    match e.methodName.bind env.valuer with
    | some f => some (.ok (f target))
    | none => none
  | .nilPtr e =>
    match e.methodName.bind env.valuer with
    | some _ => some (.error (.panic "value method called using nil pointer"))
    | none => none
  | _ => none

/-- Lines 64-70: replace a `driver.Valuer` by the result of its `Value()`. -/
def unwrapValuer (env : Env) (x : Value) : Except Fault Value :=
  match valuerOf env x with
  | some r => r.map DriverValue.toValue
  | none => .ok x

/-- Lines 72-78: `if x != nil { x = reflect.Indirect(reflect.ValueOf(x)).Interface() }`.
`Interface()` on the zero Value obtained from a nil pointer panics. -/
def indirectInterface : Value → Except Fault Value
  | .nil => .ok .nil
  | .nilPtr _ => .error (.panic "reflect: call of reflect.Value.Interface on zero Value")
  | .ptr _ _ target => .ok target
  | x => .ok x

/-- The test `reflect.ValueOf(x).IsValid()`. -/
def isValid : Value → Bool
  | .nil => false
  | _ => true

/-- Elements of a value of kind Slice (`reflect.ValueOf(x).Kind() == reflect.Slice`). -/
def sliceElems : Value → Option (List Value)
  | .slice _ _ _ xs => some xs
  | _ => none

/-- The name `reflect.ValueOf(x).Type().Name()` of a slice type. -/
def sliceTypeName : Value → String
  | .slice n _ _ _ => n
  | _ => ""

/-- One field of a struct as `reflect` sees it: its name, whether the name is
exported, and its value.  The three fields of `time.Time` are unexported; their
values are never read and are not modelled. -/
structure FieldView where
  name : String
  exported : Bool
  value : Value

/-- Fields of a value of kind Struct (user structs and `time.Time`), `none`
for the other kinds. -/
def structFields (env : Env) : Value → Option (List FieldView)
  | .struct _ fs => some (fs.map fun f => ⟨f.1, isExported env f.1, f.2⟩)
  | .time _ => some [⟨"wall", false, .nil⟩, ⟨"ext", false, .nil⟩, ⟨"loc", false, .nil⟩]
  | _ => none

/-- The call `reflect.ValueOf(x).Field(i).Interface()`: it panics for a field
obtained through an unexported name. -/
def fieldInterface (f : FieldView) : Except Fault Value :=
  if f.exported then .ok f.value
  else .error (.panic "reflect.Value.Interface: cannot return value obtained from unexported field or method")

/-! ## Conversions (`Type.ConvertibleTo`, `Value.Convert`) -/

/-- Whether two types have identical underlying types: two slice types with
the same element type, two struct types with identical field lists. -/
def identicalUnderlying (env : Env) : GoType → GoType → Bool
  | .slice _ e1, .slice _ e2 => e1 == e2
  | .struct n1, .struct n2 => n1 == n2 || env.sameFields n1 n2
  | a, b => a == b

/-- Integer kinds of the universe. -/
def GoType.isInt : GoType → Bool
  | .int64 => true
  | .int8 => true
  | _ => false

/-- The test `src.ConvertibleTo(dst)`: identical underlying types, unnamed
pointers to such types, integer to integer, integer to string. -/
def convertibleTo (env : Env) (src dst : GoType) : Bool :=
  identicalUnderlying env src dst ||
  (match src, dst with
    | .ptr a, .ptr b => identicalUnderlying env a b
    | _, _ => false) ||
  (src.isInt && (dst.isInt || dst == GoType.string))

/-- Conversion of a 64-bit integer to `int8` (two's complement wrap-around). -/
def wrapInt8 (n : Int) : Int :=
  (n + 128) % 256 - 128

/-- Conversion of an integer to a string: the UTF-8 encoding of the code point,
or of U+FFFD when the integer is not a valid code point. -/
def runeString (n : Int) : String :=
  if 0 ≤ n ∧ Nat.isValidChar n.toNat then String.singleton (Char.ofNat n.toNat)
  else String.singleton (Char.ofNat 0xFFFD)

/-- The call `reflect.ValueOf(v).Convert(dst).Interface()` for a convertible
pair: a value of the type `dst` is returned as it is; an integer is truncated or
turned into a string; a slice, a struct or a pointer takes the type `dst` and
keeps its contents. -/
def convert (v : Value) (dst : GoType) : Value :=
  if v.typeOf = some dst then v
  else
    match v, dst with
    | .int64 n, .int8 => .int8 (wrapInt8 n)
    | .int64 n, .string => .str (runeString n)
    | .int8 n, .int64 => .int64 n
    | .int8 n, .string => .str (runeString n)
    | .slice _ e isNil xs, .slice n2 _ => .slice n2 e isNil xs
    | .struct _ fs, .struct n2 => .struct n2 fs
    | .nilPtr _, .ptr e2 => .nilPtr e2
    | .ptr _ a (.struct _ fs), .ptr (.struct n2) => .ptr (.struct n2) a (.struct n2 fs)
    | .ptr _ a (.slice _ e isNil xs), .ptr (.slice n2 e2) =>
      .ptr (.slice n2 e2) a (.slice n2 e isNil xs)
    | x, _ => x

/-! ## time.Time -/

/-- Nanoseconds per second. -/
def second : Int := 1000000000

/-- The instant of `t.Truncate(time.Second)`, in nanoseconds. -/
def truncateSecond (t : Time) : Int :=
  t.nanos - t.nanos % second

/-- The instant of `t.Round(time.Second)`, in nanoseconds: halfway values round up. -/
def roundSecond (t : Time) : Int :=
  let r := t.nanos % second
  if r + r < second then t.nanos - r else t.nanos + (second - r)

/-- The string `t.Round(time.Second).UTC().Format(format)`. -/
def roundFormat (env : Env) (t : Time) : String :=
  env.formatUTC (roundSecond t / second)

/-- The string `t.Truncate(time.Second).UTC().Format(format)`. -/
def truncateFormat (env : Env) (t : Time) : String :=
  env.formatUTC (truncateSecond t / second)

/-! ## AssertEqual -/

/-- Which `t.Errorf` call produced a report: line 48 (`timeRound`), line 51
(`rendering`), line 60 (`absent`), line 81 (`absentUnwrapped`), line 96
(`length`, with the lengths of expect and got), line 130 (`incomparable`). -/
inductive Report where
  | timeRound
  | rendering
  | absent
  | absentUnwrapped
  | length (expectLen gotLen : Nat)
  | incomparable
  deriving DecidableEq, Repr

/-- A reported mismatch: the names of the enclosing subtests (`t.Run`), outermost
first, and the report. -/
structure Mismatch where
  path : List String
  report : Report
  deriving DecidableEq, Repr

/-- Reports of a subtest started with `t.Run(name, ...)`. -/
def inSubtest (name : String) (ms : List Mismatch) : List Mismatch :=
  ms.map fun m => ⟨name :: m.path, m.report⟩

/-- The closure `isEqual` (lines 43-53) on the current values of `got` and
`expect`.  The assertion `expect.(time.Time)` panics when it fails. -/
def isEqual (env : Env) (got expect : Value) : Except Fault (List Mismatch) :=
  match got with
  | .time curTime =>
    match expect with
    | .time e =>
      if roundFormat env curTime ≠ roundFormat env e ∧ truncateFormat env curTime ≠ truncateFormat env e then
        .ok [⟨[], .timeRound⟩]
      else .ok []
    | _ => .error (.panic "interface conversion: interface is not time.Time")
  | _ =>
    if Sprint env got ≠ Sprint env expect then .ok [⟨[], .rendering⟩] else .ok []

/-- The loop of lines 88-93: one subtest per index, named after the type of
`got` and the index. -/
def compareElems (cmp : Value → Value → Except Fault (List Mismatch)) (typeName : String) :
    Nat → List Value → List Value → Except Fault (List Mismatch)
  | i, g :: gs, e :: es => do
    let r ← cmp g e
    let rest ← compareElems cmp typeName (i + 1) gs es
    pure (inSubtest (typeName ++ " #" ++ toString i) r ++ rest)
  | _, _, _ => pure []

/-- The loop of lines 106-114: one subtest per exported field of `got`; the
second component tells whether an exported field was seen. -/
def compareFields (cmp : Value → Value → Except Fault (List Mismatch)) :
    List FieldView → List FieldView → Except Fault (List Mismatch × Bool)
  | g :: gs, e :: es =>
    if g.exported then do
      let gv ← fieldInterface g
      let ev ← fieldInterface e
      let r ← cmp gv ev
      let rest ← compareFields cmp gs es
      pure (inSubtest g.name r ++ rest.1, true)
    else compareFields cmp gs es
  | _, _ => pure ([], false)

/-- Lines 123-132: the conversion fallback. `Type()` of the zero Value panics. -/
def coerce (env : Env) (got expect : Value) : Except Fault (List Mismatch) :=
  match got.typeOf, expect.typeOf with
  | some tg, some te =>
    if convertibleTo env tg te then
      isEqual env (convert got te) expect
    else if convertibleTo env te tg then
      isEqual env got (convert got tg)
    else .ok [⟨[], .incomparable⟩]
  | _, _ => .error (.panic "reflect: call of reflect.Value.Type on zero Value")

/-- Lines 80-132, on the unwrapped values; `cmp` stands for the recursive calls
of `AssertEqual` made in the subtests. -/
def compareKinds (env : Env) (cmp : Value → Value → Except Fault (List Mismatch))
    (got expect : Value) : Except Fault (List Mismatch) :=
  if isValid got ≠ isValid expect then pure [⟨[], .absentUnwrapped⟩]
  else
    match sliceElems got, sliceElems expect with
    | some gs, some es =>
      if gs.length = es.length then
        compareElems cmp (sliceTypeName got) 0 gs es
      else pure [⟨[], .length es.length gs.length⟩]
    | _, _ =>
      match structFields env got, structFields env expect with
      | some gf, some ef =>
        if gf.length = ef.length then do
          let r ← compareFields cmp gf ef
          if r.2 then pure r.1 else coerce env got expect
        else coerce env got expect
      | _, _ => coerce env got expect

/-- Lines 64-78: both values with a `driver.Valuer` replaced by its `Value()`
and a pointer replaced by its pointee, in the order of the source. -/
def unwrapBoth (env : Env) (got expect : Value) : Except Fault (Value × Value) := do
  let got ← unwrapValuer env got
  let expect ← unwrapValuer env expect
  let got ← indirectInterface got
  let expect ← indirectInterface expect
  pure (got, expect)

/-- The body of `AssertEqual` (lines 42-133); `cmp` stands for its recursive
calls.  The result is the list of reports in the order they are made, or the
panic that stopped the run. -/
def AssertEqualStep (env : Env) (cmp : Value → Value → Except Fault (List Mismatch))
    (got expect : Value) : Except Fault (List Mismatch) :=
  if DeepEqual got expect then .ok []
  else if Sprint env got = Sprint env expect then .ok []
  else if indirectValid got ≠ indirectValid expect then .ok [⟨[], .absent⟩]
  else
    match unwrapBoth env got expect with
    | .error f => .error f
    | .ok (got, expect) => compareKinds env cmp got expect

/-- The function `AssertEqual` with a bound on the depth of its recursion. -/
def AssertEqualFuel (env : Env) : Nat → Value → Value → Except Fault (List Mismatch)
  | 0, _, _ => .error .fuel
  | fuel + 1, got, expect => AssertEqualStep env (AssertEqualFuel env fuel) got expect

mutual
/-- Nesting depth of slices and structs in a value; it bounds the depth of the
recursion of `AssertEqual` (a pointer is followed without a recursive call). -/
def Value.depth : Value → Nat
  | .ptr _ _ t => t.depth
  | .slice _ _ _ xs => depthL xs + 1
  | .struct _ fs => depthF fs + 1
  | _ => 0
/-- Largest depth among the elements of a slice. -/
def depthL : List Value → Nat
  | [] => 0
  | x :: xs => max x.depth (depthL xs)
/-- Largest depth among the fields of a struct. -/
def depthF : List (String × Value) → Nat
  | [] => 0
  | (_, x) :: fs => max x.depth (depthF fs)
end

/-- The function `AssertEqual` (lines 41-134): the recursion is run with a
budget that the nesting depth of `got` never exhausts
(`AssertEqual_never_out_of_fuel`, `AssertEqual_eq_step`). -/
def AssertEqual (env : Env) (got expect : Value) : Except Fault (List Mismatch) :=
  AssertEqualFuel env (got.depth + 1) got expect

/-- The result is not the exhaustion of the recursion budget of the model. -/
def Completes (r : Except Fault (List Mismatch)) : Prop :=
  r ≠ .error .fuel

/-- Locations (subtest paths) at which a run reports a mismatch, `none` when the
run panics. -/
def locations : Except Fault (List Mismatch) → Option (List (List String))
  | .ok ms => some (ms.map Mismatch.path)
  | .error _ => none

/-- The run reports a mismatch at the location `p`. -/
def ReportsAt (r : Except Fault (List Mismatch)) (p : List String) : Prop :=
  ∃ ms, r = .ok ms ∧ ∃ m ∈ ms, m.path = p

/-! ## GetUser -/

/-- The struct `Config` (lines 19-29). -/
structure Config where
  Account : Bool
  Pets : Int
  Toys : Int
  Company : Bool
  Manager : Bool
  Team : Int
  Languages : Int
  Friends : Int
  NamedPet : Bool
  deriving DecidableEq, Repr

/-- The zero value `Config{}`. -/
def Config.zero : Config :=
  ⟨false, 0, 0, false, false, 0, 0, 0, false⟩

/-- The field of `Account` that `GetUser` assigns. -/
structure Account where
  Number : String
  deriving DecidableEq, Repr

/-- The field of `Pet` that `GetUser` assigns. -/
structure Pet where
  Name : String
  deriving DecidableEq, Repr

/-- The field of `Toy` that `GetUser` assigns. -/
structure Toy where
  Name : String
  deriving DecidableEq, Repr

/-- The field of `Company` that `GetUser` assigns. -/
structure Company where
  Name : String
  deriving DecidableEq, Repr

/-- The fields of `Language` that `GetUser` assigns. -/
structure Language where
  Code : String
  Name : String
  deriving DecidableEq, Repr

/-- The value `spanner.NullTime`. -/
structure NullTime where
  Time : Time
  Valid : Bool
  deriving DecidableEq, Repr

/-- The fields of `User` that `GetUser` assigns (the type is declared outside
`helper.go`; the other fields keep their zero value).  `Manager` and `NamedPet`
are pointers (`none` is nil), `Pets` and `Friends` are slices of non-nil
pointers. -/
inductive User where
  | mk (Name : String) (Age : Nat) (Birthday : NullTime) (Account : Account)
      (Pets : List Pet) (Toys : List Toy) (Company : Company) (Manager : Option User)
      (Team : List User) (Languages : List Language) (Friends : List User)
      (NamedPet : Option Pet)

/-- Field `Name`. -/
def User.Name : User → String
  | .mk n _ _ _ _ _ _ _ _ _ _ _ => n
/-- Field `Age`. -/
def User.Age : User → Nat
  | .mk _ a _ _ _ _ _ _ _ _ _ _ => a
/-- Field `Birthday`. -/
def User.Birthday : User → NullTime
  | .mk _ _ b _ _ _ _ _ _ _ _ _ => b
/-- Field `Account`. -/
def User.Account : User → Account
  | .mk _ _ _ a _ _ _ _ _ _ _ _ => a
/-- Field `Pets`. -/
def User.Pets : User → List Pet
  | .mk _ _ _ _ p _ _ _ _ _ _ _ => p
/-- Field `Toys`. -/
def User.Toys : User → List Toy
  | .mk _ _ _ _ _ t _ _ _ _ _ _ => t
/-- Field `Company`. -/
def User.Company : User → Company
  | .mk _ _ _ _ _ _ c _ _ _ _ _ => c
/-- Field `Manager`. -/
def User.Manager : User → Option User
  | .mk _ _ _ _ _ _ _ m _ _ _ _ => m
/-- Field `Team`. -/
def User.Team : User → List User
  | .mk _ _ _ _ _ _ _ _ t _ _ _ => t
/-- Field `Languages`. -/
def User.Languages : User → List Language
  | .mk _ _ _ _ _ _ _ _ _ l _ _ => l
/-- Field `Friends`. -/
def User.Friends : User → List User
  | .mk _ _ _ _ _ _ _ _ _ _ f _ => f
/-- Field `NamedPet`. -/
def User.NamedPet : User → Option Pet
  | .mk _ _ _ _ _ _ _ _ _ _ _ p => p

/-- The loop `for i := 0; i < n; i++ { ... }` over a state: no iteration when
`n ≤ 0`. -/
def forLoop {σ : Type} (n : Int) (body : Nat → σ → σ) (init : σ) : σ :=
  (List.range n.toNat).foldl (fun s i => body i s) init

/-- The same loop with a body that may fail to return. -/
def forLoopM {σ : Type} (n : Int) (body : Nat → σ → Option σ) (init : σ) : Option σ :=
  (List.range n.toNat).foldlM (fun s i => body i s) init

/-- The function `strconv.Itoa` on a non-negative integer. -/
def Itoa (n : Nat) : String :=
  toString n

/-- The function `GetUser` (lines 136-188) with a bound on the depth of its
recursion.  `now k` is the `k`-th reading of `time.Now()`; the state passed along
is the number of readings made so far.  `none` means the bound was reached. -/
def GetUserFuel (now : Nat → Time) : Nat → Nat → String → String → Config → Option (User × Nat)
  | 0, _, _, _, _ => none
  | fuel + 1, k, name, _, config => do
    let birthday : Time := ⟨roundSecond (now k), none, (now k).loc⟩
    let k := k + 1
    let account : Account := if config.Account then ⟨name ++ "_account"⟩ else ⟨""⟩
    let pets : List Pet :=
      forLoop config.Pets (fun i pets => pets ++ [⟨name ++ "_pet_" ++ Itoa (i + 1)⟩]) []
    let toys : List Toy :=
      forLoop config.Toys (fun i toys => toys ++ [⟨name ++ "_toy_" ++ Itoa (i + 1)⟩]) []
    let company : Company := if config.Company then ⟨"company-" ++ name⟩ else ⟨""⟩
    let (manager, k) ←
      if config.Manager then
        (GetUserFuel now fuel k (name ++ "_manager") "" Config.zero).map fun r => (some r.1, r.2)
      else pure (none, k)
    let (team, k) ← forLoopM config.Team (fun i s => do
      let r ← GetUserFuel now fuel s.2 (name ++ "_team_" ++ Itoa (i + 1)) "" Config.zero
      pure (s.1 ++ [r.1], r.2)) ([], k)
    let languages : List Language :=
      forLoop config.Languages (fun i languages =>
        let name := name ++ "_locale_" ++ Itoa (i + 1)
        languages ++ [⟨name, name⟩]) []
    let (friends, k) ← forLoopM config.Friends (fun i s => do
      let r ← GetUserFuel now fuel s.2 (name ++ "_friend_" ++ Itoa (i + 1)) "" Config.zero
      pure (s.1 ++ [r.1], r.2)) ([], k)
    let namedPet : Option Pet := if config.NamedPet then some ⟨name ++ "_namepet"⟩ else none
    pure (User.mk name 18 ⟨birthday, true⟩ account pets toys company manager team languages
      friends namedPet, k)

/-- The function `GetUser`: a nested call is made with `Config{}` and makes no
further call, so a budget of two levels is never exhausted
(`GetUserFuel_closed`). -/
def GetUser (now : Nat → Time) (k : Nat) (name id : String) (config : Config) :
    Option (User × Nat) :=
  GetUserFuel now 2 k name id config

/-- A user has no associations: no account, pets, toys, company, manager, team,
languages, friends or named pet. -/
def User.noAssociations (u : User) : Prop :=
  u.Account = ⟨""⟩ ∧ u.Pets = [] ∧ u.Toys = [] ∧ u.Company = ⟨""⟩ ∧ u.Manager = none ∧
    u.Team = [] ∧ u.Languages = [] ∧ u.Friends = [] ∧ u.NamedPet = none

/-! ## Sample declarations

A concrete environment on which the statements below are evaluated. -/

/-- Decimal digits of a natural number, most significant first. -/
def decimalChars (n : Nat) : List Char :=
  (Nat.digits 10 n).reverse.map Nat.digitChar

/-- Signed decimal rendering of an integer. -/
def signedDecimal (z : Int) : String :=
  String.mk ((if z < 0 then '-' else '+') :: decimalChars z.natAbs)

/-- The method `func (n NullString) Value() (driver.Value, error)` of
`database/sql`: nil unless `Valid`, else the string. -/
def nullStringValue : Value → DriverValue
  | .struct _ [(_, .str s), (_, .bool true)] => .str s
  | _ => .null

/-- A method `func (s Secret) Value() (driver.Value, error) { return s.code, nil }`
of a type `Secret struct { Label string; code int64 }`. -/
def secretValue : Value → DriverValue
  | .struct _ [_, (_, .int64 c)] => .int64 c
  | _ => .null

/-- A method `Value()` of a type `Labels []string` that returns the elements
joined without a separator. -/
def labelsValue : Value → DriverValue
  | .slice _ _ _ xs => .str (xs.foldl (fun acc x => acc ++ (match x with | .str s => s | _ => "")) "")
  | _ => .null

/-- Sample environment: ASCII upper-case letters; the `Value()` methods of
`NullString`, `Secret` and `Labels`; a type `Quiet` whose `String()` returns
`"<nil>"`; a type `Loud` with `func (l *Loud) String() string { return "loud" }`;
two struct types `k1` and `k2` with the same field list; time renderings that
print the instant as a signed decimal number (of nanoseconds, of seconds for
`formatUTC`). -/
def sampleEnv : Env where
  isUpper := Char.isUpper
  valuer := fun n =>
    if n = "NullString" then some nullStringValue
    else if n = "Secret" then some secretValue
    else if n = "Labels" then some labelsValue
    else none
  stringer := fun n => if n = "Quiet" then some (fun _ => "<nil>") else none
  ptrStringer := fun n => if n = "Loud" then some (some "loud", fun _ => "loud") else none
  sameFields := fun a b => (a == "k1" && b == "k2") || (a == "k2" && b == "k1")
  timeString := fun t => signedDecimal t.nanos
  timeRaw := fun t => signedDecimal t.nanos
  formatUTC := signedDecimal

/-- Decimal rendering of a non-negative integer, padded with zeros to the width
`w`. -/
def padded (w : Nat) (n : Int) : String :=
  let d := toString n.natAbs
  String.mk (List.replicate (w - d.length) '0') ++ d

/-- Civil date (year, month, day) of the day `days` after 1970-01-01 in the
proleptic Gregorian calendar. -/
def civilFromDays (days : Int) : Int × Int × Int :=
  let z := days + 719468
  let era := z / 146097
  let doe := z - era * 146097
  let yoe := (doe - doe / 1460 + doe / 36524 - doe / 146096) / 365
  let doy := doe - (365 * yoe + yoe / 4 - yoe / 100)
  let mp := (5 * doy + 2) / 153
  let d := doy - (153 * mp + 2) / 5 + 1
  let m := if mp < 10 then mp + 3 else mp - 9
  (yoe + era * 400 + (if m ≤ 2 then 1 else 0), m, d)

/-- The digits of a fraction of a second as the layout `.999999999` prints them:
nothing for zero, else nine digits without the trailing zeros. -/
def fractionText (frac : Int) : String :=
  if frac = 0 then ""
  else "." ++ String.mk ((padded 9 frac).data.reverse.dropWhile (· == '0')).reverse

/-- The method `time.Time.String`: the layout
`2006-01-02 15:04:05.999999999 -0700 MST` in the location of the time, followed
by the monotonic clock reading when there is one.  `zone` gives the offset in
seconds east of UTC and the abbreviation of a location; the layout prints the
offset in hours and minutes. -/
def goTimeString (zone : String → Int × String) (t : Time) : String :=
  let off := (zone t.loc).1
  let wall := t.nanos / second + off
  let date := civilFromDays (wall / 86400)
  let sod := wall % 86400
  let zmin := Int.tdiv off 60
  let year := (if date.1 < 0 then "-" else "") ++ padded 4 date.1
  let mono := match t.mono with
    | none => ""
    | some m =>
      let a : Int := m.natAbs
      " m=" ++ (if m < 0 then "-" else "+") ++
        (if a / second / second ≠ 0 then
          toString (a / second / second) ++ padded 9 (a / second % second)
        else toString (a / second % second)) ++ "." ++ padded 9 (a % second)
  year ++ "-" ++ padded 2 date.2.1 ++ "-" ++ padded 2 date.2.2 ++ " " ++
    padded 2 (sod / 3600) ++ ":" ++ padded 2 (sod % 3600 / 60) ++ ":" ++ padded 2 (sod % 60) ++
    fractionText (t.nanos % second) ++ " " ++
    (if zmin < 0 then "-" else "+") ++ padded 2 (zmin.natAbs / 60) ++ padded 2 (zmin.natAbs % 60) ++
    " " ++ (zone t.loc).2 ++ mono

/-- Two fixed zones (`time.FixedZone`) named `LMT`, 19 min 32 s and 19 min east of
UTC; any other location stands for UTC. -/
def fixedZones (loc : String) : Int × String :=
  if loc = "LMT+0:19:32" then (1172, "LMT")
  else if loc = "LMT+0:19:00" then (1140, "LMT")
  else (0, "UTC")

/-- The sample environment with `time.Time.String` rendered as Go renders it. -/
def zonedEnv : Env :=
  { sampleEnv with timeString := goTimeString fixedZones }

/-- The value `sql.NullString{String: s, Valid: valid}`. -/
def nullString (s : String) (valid : Bool) : Value :=
  .struct "NullString" [("String", .str s), ("Valid", .bool valid)]

/-- The slice `[]int64{...}`. -/
def int64s (xs : List Int) : Value :=
  .slice "" .int64 false (xs.map Value.int64)

/-- The slice `[]string{...}`. -/
def strings (xs : List String) : Value :=
  .slice "" .string false (xs.map Value.str)

deriving instance DecidableEq for Except

/-! ## Notions used in the statements -/

/-- Two `driver.Value` results are of the same type, or one of them is nil. -/
def sameDriverType : DriverValue → DriverValue → Bool
  | .null, _ => true
  | _, .null => true
  | .bool _, .bool _ => true
  | .int64 _, .int64 _ => true
  | .str _, .str _ => true
  | .time _, .time _ => true
  | _, _ => false

/-- When both values are `driver.Valuer`s, their `Value()` results are of the
same type or nil. -/
def resultsAlike (env : Env) (a b : Value) : Bool :=
  match valuerOf env a, valuerOf env b with
  | some (.ok r1), some (.ok r2) => sameDriverType r1 r2
  | _, _ => true

mutual
/-- Two values have the same shape: leaving nil interface values aside, they
have the same type, and so have the pointees, the slice elements at the same
index (the lengths may differ) and the struct fields, which also have the same
names; the `Value()` results of `driver.Valuer`s are of the same type or nil.
For such values the conversion fallback of `AssertEqual` converts nothing. -/
def sameShape (env : Env) : Value → Value → Bool
  | .nil, _ => true
  | .bool _, b => match b with
    | .nil => true | .bool _ => true | _ => false
  | .int64 _, b => match b with
    | .nil => true | .int64 _ => true | _ => false
  | .int8 _, b => match b with
    | .nil => true | .int8 _ => true | _ => false
  | .str _, b => match b with
    | .nil => true | .str _ => true | _ => false
  | .time _, b => match b with
    | .nil => true | .time _ => true | _ => false
  | .nilPtr e1, b => match b with
    | .nil => true | .nilPtr e2 => e1 == e2 | .ptr e2 _ _ => e1 == e2 | _ => false
  | .ptr e1 a1 t1, b => match b with
    | .nil => true
    | .nilPtr e2 => e1 == e2
    | .ptr e2 a2 t2 =>
      e1 == e2 && resultsAlike env (.ptr e1 a1 t1) (.ptr e2 a2 t2) && sameShape env t1 t2
    | _ => false
  | .slice n1 e1 nil1 xs, b => match b with
    | .nil => true
    | .slice n2 e2 nil2 ys =>
      n1 == n2 && e1 == e2 && resultsAlike env (.slice n1 e1 nil1 xs) (.slice n2 e2 nil2 ys) &&
        sameShapeL env xs ys
    | _ => false
  | .struct n1 fs, b => match b with
    | .nil => true
    | .struct n2 gs =>
      n1 == n2 && resultsAlike env (.struct n1 fs) (.struct n2 gs) && sameShapeF env fs gs
    | _ => false
/-- Elements at the same index have the same shape. -/
def sameShapeL (env : Env) : List Value → List Value → Bool
  | x :: xs, y :: ys => sameShape env x y && sameShapeL env xs ys
  | _, _ => true
/-- The fields have the same names and the same shapes. -/
def sameShapeF (env : Env) : List (String × Value) → List (String × Value) → Bool
  | [], [] => true
  | (n, x) :: fs, (m, y) :: gs => n == m && sameShape env x y && sameShapeF env fs gs
  | _, _ => false
end

/-- Lines 64-78 on one value. -/
def unwrapOne (env : Env) (x : Value) : Except Fault Value :=
  unwrapValuer env x >>= indirectInterface

/-- Locations reported by the loop over the fields, with its flag, `none` when
the loop panics. -/
def locationsF : Except Fault (List Mismatch × Bool) → Option (List (List String) × Bool)
  | .ok r => some (r.1.map Mismatch.path, r.2)
  | .error _ => none

/-- Reports of the element comparisons `rs`, each inside the subtest of its
index (counted from `i`), in index order. -/
def elementReports (typeName : String) (i : Nat) (rs : List (List Mismatch)) : List Mismatch :=
  ((rs.enumFrom i).map fun jr => inSubtest (typeName ++ " #" ++ toString jr.1) jr.2).flatten

/-- The user built by `GetUser(name, id, Config{})` when the clock has been read
`k` times. -/
def plainUser (now : Nat → Time) (k : Nat) (name : String) : User :=
  User.mk name 18 ⟨⟨roundSecond (now k), none, (now k).loc⟩, true⟩ ⟨""⟩ [] [] ⟨""⟩ none [] [] []
    none

/-- A nested user is the result of `GetUser` with the empty `Config` and has no
associations. -/
def User.plainlyBuilt (now : Nat → Time) (u : User) : Prop :=
  (∃ j, GetUser now j u.Name "" Config.zero = some (u, j + 1)) ∧ u.noAssociations

/-! # Theorems -/

/-! ## The recursion of AssertEqual is well founded -/

theorem depthL_le {x : Value} : ∀ {xs : List Value}, x ∈ xs → x.depth ≤ depthL xs
  | [], h => by simp at h
  | y :: ys, h => by
    simp only [depthL]
    rcases List.mem_cons.mp h with h | h
    · subst h; exact le_max_left _ _
    · exact le_trans (depthL_le h) (le_max_right _ _)

theorem depthF_le {p : String × Value} : ∀ {fs : List (String × Value)}, p ∈ fs → p.2.depth ≤ depthF fs
  | [], h => by simp at h
  | (n, y) :: ys, h => by
    simp only [depthF]
    rcases List.mem_cons.mp h with h | h
    · subst h; exact le_max_left _ _
    · exact le_trans (depthF_le h) (le_max_right _ _)

theorem compareElems_congr {cmp1 cmp2 : Value → Value → Except Fault (List Mismatch)} (tn : String) :
    ∀ (gs es : List Value) (i : Nat), (∀ g ∈ gs, ∀ e, cmp1 g e = cmp2 g e) →
      compareElems cmp1 tn i gs es = compareElems cmp2 tn i gs es
  | [], _, _, _ => by simp [compareElems]
  | _ :: _, [], _, _ => by simp [compareElems]
  | g :: gs, e :: es, i, h => by
    simp only [compareElems]
    rw [h g (List.mem_cons_self _ _) e,
      compareElems_congr tn gs es (i + 1) (fun x hx => h x (List.mem_cons_of_mem _ hx))]

theorem compareFields_congr {cmp1 cmp2 : Value → Value → Except Fault (List Mismatch)} :
    ∀ (gs es : List FieldView), (∀ g ∈ gs, g.exported = true → ∀ e, cmp1 g.value e = cmp2 g.value e) →
      compareFields cmp1 gs es = compareFields cmp2 gs es
  | [], _, _ => by simp [compareFields]
  | _ :: _, [], _ => by simp [compareFields]
  | g :: gs, e :: es, h => by
    have ih := compareFields_congr gs es (fun x hx => h x (List.mem_cons_of_mem _ hx))
    simp only [compareFields]
    by_cases hg : g.exported = true
    · simp only [hg, if_true, fieldInterface]
      cases he : e.exported
      · rfl
      · simp only [if_true]
        show (do let r ← cmp1 g.value e.value; _) = (do let r ← cmp2 g.value e.value; _)
        rw [h g (List.mem_cons_self _ _) hg e.value, ih]
    · simp only [hg, ih]; rfl

theorem sliceElems_depth {got : Value} {gs : List Value} (h : sliceElems got = some gs) :
    ∀ g ∈ gs, g.depth < got.depth := by
  intro g hg
  cases got <;> simp [sliceElems] at h
  subst h
  simp only [Value.depth]
  exact Nat.lt_succ_of_le (depthL_le hg)

theorem structFields_depth {env : Env} {got : Value} {gf : List FieldView}
    (h : structFields env got = some gf) :
    ∀ f ∈ gf, f.exported = true → f.value.depth < got.depth := by
  intro f hf hex
  cases got <;> simp [structFields] at h
  · subst h
    simp at hf
    rcases hf with rfl | rfl | rfl <;> simp at hex
  · subst h
    obtain ⟨p, hp, rfl⟩ := List.mem_map.mp hf
    simp only [Value.depth]
    exact Nat.lt_succ_of_le (depthF_le hp)

theorem compareKinds_congr (env : Env) {cmp1 cmp2 : Value → Value → Except Fault (List Mismatch)}
    (got expect : Value) (h : ∀ x e, x.depth < got.depth → cmp1 x e = cmp2 x e) :
    compareKinds env cmp1 got expect = compareKinds env cmp2 got expect := by
  unfold compareKinds
  split
  · rfl
  · split
    · rename_i gs es hgs hes
      rw [compareElems_congr _ gs es 0 (fun g hg e => h g e (sliceElems_depth hgs g hg))]
    · split
      · rename_i gf ef hgf hef
        rw [compareFields_congr gf ef (fun g hg hex e => h g.value e (structFields_depth hgf g hg hex))]
      · rfl

theorem unwrapValuer_depth {env : Env} {x y : Value} (h : unwrapValuer env x = .ok y) :
    y.depth ≤ x.depth := by
  unfold unwrapValuer at h
  split at h
  · rename_i r _
    cases r with
    | error _ => simp [Except.map] at h
    | ok d =>
      simp only [Except.map, Except.ok.injEq] at h
      subst h
      cases d <;> simp [DriverValue.toValue, Value.depth]
  · simp only [Except.ok.injEq] at h
    subst h; exact le_refl _

theorem indirectInterface_depth {x y : Value} (h : indirectInterface x = .ok y) :
    y.depth ≤ x.depth := by
  cases x <;> simp [indirectInterface] at h <;> subst h <;> simp [Value.depth]

theorem unwrapBoth_ok {env : Env} {got expect g e : Value}
    (h : unwrapBoth env got expect = .ok (g, e)) :
    ∃ g1 e1, unwrapValuer env got = .ok g1 ∧ unwrapValuer env expect = .ok e1 ∧
      indirectInterface g1 = .ok g ∧ indirectInterface e1 = .ok e := by
  unfold unwrapBoth at h
  cases h1 : unwrapValuer env got with
  | error _ => rw [h1] at h; cases h
  | ok g1 =>
    cases h2 : unwrapValuer env expect with
    | error _ => rw [h1, h2] at h; cases h
    | ok e1 =>
      cases h3 : indirectInterface g1 with
      | error _ => rw [h1, h2] at h; simp only [bind, Except.bind] at h; rw [h3] at h; cases h
      | ok g2 =>
        cases h4 : indirectInterface e1 with
        | error _ =>
          rw [h1, h2] at h; simp only [bind, Except.bind] at h; rw [h3] at h
          simp only [h4] at h; cases h
        | ok e2 =>
          rw [h1, h2] at h; simp only [bind, Except.bind] at h; rw [h3] at h
          simp only [h4, pure, Except.pure, Except.ok.injEq, Prod.mk.injEq] at h
          obtain ⟨rfl, rfl⟩ := h
          exact ⟨g1, e1, rfl, rfl, h3, h4⟩

theorem unwrapBoth_depth {env : Env} {got expect g e : Value}
    (h : unwrapBoth env got expect = .ok (g, e)) : g.depth ≤ got.depth := by
  obtain ⟨g1, e1, h1, _, h3, _⟩ := unwrapBoth_ok h
  exact le_trans (indirectInterface_depth h3) (unwrapValuer_depth h1)

theorem AssertEqualStep_congr (env : Env) {cmp1 cmp2 : Value → Value → Except Fault (List Mismatch)}
    (got expect : Value) (h : ∀ x e, x.depth < got.depth → cmp1 x e = cmp2 x e) :
    AssertEqualStep env cmp1 got expect = AssertEqualStep env cmp2 got expect := by
  unfold AssertEqualStep
  split
  · rfl
  split
  · rfl
  split
  · rfl
  cases hu : unwrapBoth env got expect with
  | error _ => rfl
  | ok p =>
    obtain ⟨g, e⟩ := p
    exact compareKinds_congr env g e (fun x y hx => h x y (lt_of_lt_of_le hx (unwrapBoth_depth hu)))

theorem AssertEqualFuel_stable (env : Env) :
    ∀ (n m : Nat) (got expect : Value), got.depth < n → got.depth < m →
      AssertEqualFuel env n got expect = AssertEqualFuel env m got expect
  | 0, _, _, _, h, _ => absurd h (Nat.not_lt_zero _)
  | _ + 1, 0, _, _, _, h => absurd h (Nat.not_lt_zero _)
  | n + 1, m + 1, got, expect, hn, hm => by
    simp only [AssertEqualFuel]
    exact AssertEqualStep_congr env got expect (fun x e hx =>
      AssertEqualFuel_stable env n m x e (by omega) (by omega))

theorem AssertEqual_eq_step (env : Env) (got expect : Value) :
    AssertEqual env got expect = AssertEqualStep env (AssertEqual env) got expect := by
  unfold AssertEqual
  simp only [AssertEqualFuel]
  exact AssertEqualStep_congr env got expect (fun x e hx =>
    AssertEqualFuel_stable env _ _ x e hx (Nat.lt_succ_self _))

theorem isEqual_completes (env : Env) (got expect : Value) : Completes (isEqual env got expect) := by
  unfold isEqual Completes
  repeat' split
  all_goals simp

theorem coerce_completes (env : Env) (got expect : Value) : Completes (coerce env got expect) := by
  unfold coerce
  split
  · split
    · exact isEqual_completes _ _ _
    · split
      · exact isEqual_completes _ _ _
      · simp [Completes]
  · simp [Completes]

theorem compareElems_completes {cmp : Value → Value → Except Fault (List Mismatch)} (tn : String) :
    ∀ (gs es : List Value) (i : Nat), (∀ g ∈ gs, ∀ e, Completes (cmp g e)) →
      Completes (compareElems cmp tn i gs es)
  | [], _, _, _ => by simp [compareElems, Completes, pure, Except.pure]
  | _ :: _, [], _, _ => by simp [compareElems, Completes, pure, Except.pure]
  | g :: gs, e :: es, i, h => by
    have h1 := h g (List.mem_cons_self _ _) e
    have h2 := compareElems_completes tn gs es (i + 1) (fun x hx => h x (List.mem_cons_of_mem _ hx))
    simp only [compareElems]
    unfold Completes at *
    cases hc : cmp g e with
    | error f => rw [hc] at h1; simpa [bind, Except.bind] using h1
    | ok r =>
      cases hr : compareElems cmp tn (i + 1) gs es with
      | error f => rw [hr] at h2; simpa [bind, Except.bind] using h2
      | ok rest => simp [bind, Except.bind, pure, Except.pure]

theorem compareFields_fault {cmp : Value → Value → Except Fault (List Mismatch)} :
    ∀ (gs es : List FieldView), (∀ g ∈ gs, g.exported = true → ∀ e, Completes (cmp g.value e)) →
      compareFields cmp gs es ≠ .error .fuel
  | [], _, _ => by simp [compareFields, pure, Except.pure]
  | _ :: _, [], _ => by simp [compareFields, pure, Except.pure]
  | g :: gs, e :: es, h => by
    have ih := compareFields_fault gs es (fun x hx => h x (List.mem_cons_of_mem _ hx))
    simp only [compareFields]
    by_cases hg : g.exported = true
    · have h1 := h g (List.mem_cons_self _ _) hg e.value
      unfold Completes at h1
      simp only [hg, if_true, fieldInterface]
      cases he : e.exported
      · simp [bind, Except.bind]
      · simp only [if_true, bind, Except.bind]
        cases hc : cmp g.value e.value with
        | error f => rw [hc] at h1; simpa using h1
        | ok r =>
          cases hr : compareFields cmp gs es with
          | error f => rw [hr] at ih; simpa using ih
          | ok rest => simp [pure, Except.pure]
    · simpa only [hg] using ih

theorem compareKinds_completes (env : Env) {cmp : Value → Value → Except Fault (List Mismatch)}
    (got expect : Value) (h : ∀ x e, x.depth < got.depth → Completes (cmp x e)) :
    Completes (compareKinds env cmp got expect) := by
  unfold compareKinds
  split
  · simp [Completes, pure, Except.pure]
  · split
    · rename_i gs es hgs hes
      split
      · exact compareElems_completes _ gs es 0 (fun g hg e => h g e (sliceElems_depth hgs g hg))
      · simp [Completes, pure, Except.pure]
    · split
      · rename_i gf ef hgf hef
        split
        · have hf := @compareFields_fault cmp gf ef
            (fun g hg hex e => h g.value e (structFields_depth hgf g hg hex))
          cases hr : compareFields cmp gf ef with
          | error f => rw [hr] at hf; simpa [Completes, bind, Except.bind] using hf
          | ok r =>
            simp only [bind, Except.bind]
            split
            · simp [Completes, pure, Except.pure]
            · exact coerce_completes _ _ _
        · exact coerce_completes _ _ _
      · exact coerce_completes _ _ _

theorem unwrapValuer_fault (env : Env) (x : Value) : unwrapValuer env x ≠ .error .fuel := by
  unfold unwrapValuer
  split
  · rename_i r hr
    cases r with
    | ok d => simp [Except.map]
    | error f =>
      simp only [Except.map]
      cases x <;> simp only [valuerOf] at hr <;> (try split at hr) <;> simp at hr
      all_goals (subst hr; simp)
  · simp

theorem indirectInterface_fault (x : Value) : indirectInterface x ≠ .error .fuel := by
  cases x <;> simp [indirectInterface]

theorem unwrapBoth_fault (env : Env) (got expect : Value) :
    unwrapBoth env got expect ≠ .error .fuel := by
  unfold unwrapBoth
  have h1 := unwrapValuer_fault env got
  have h2 := unwrapValuer_fault env expect
  cases hg : unwrapValuer env got with
  | error f => rw [hg] at h1; simpa [bind, Except.bind] using h1
  | ok g1 =>
    cases he : unwrapValuer env expect with
    | error f => rw [he] at h2; simpa [bind, Except.bind] using h2
    | ok e1 =>
      have h3 := indirectInterface_fault g1
      have h4 := indirectInterface_fault e1
      simp only [bind, Except.bind]
      cases hg2 : indirectInterface g1 with
      | error f => rw [hg2] at h3; simpa using h3
      | ok g2 =>
        cases he2 : indirectInterface e1 with
        | error f => rw [he2] at h4; simpa using h4
        | ok e2 => simp [pure, Except.pure]

theorem AssertEqualStep_completes (env : Env) {cmp : Value → Value → Except Fault (List Mismatch)}
    (got expect : Value) (h : ∀ x e, x.depth < got.depth → Completes (cmp x e)) :
    Completes (AssertEqualStep env cmp got expect) := by
  unfold AssertEqualStep
  split
  · simp [Completes]
  split
  · simp [Completes]
  split
  · simp [Completes]
  have hu := unwrapBoth_fault env got expect
  cases hb : unwrapBoth env got expect with
  | error f => rw [hb] at hu; simpa [Completes] using hu
  | ok p =>
    obtain ⟨g, e⟩ := p
    exact compareKinds_completes env g e (fun x y hx => h x y (lt_of_lt_of_le hx (unwrapBoth_depth hb)))

theorem AssertEqualFuel_completes (env : Env) :
    ∀ (n : Nat) (got expect : Value), got.depth < n → Completes (AssertEqualFuel env n got expect)
  | 0, _, _, h => absurd h (Nat.not_lt_zero _)
  | n + 1, got, expect, hn => by
    simp only [AssertEqualFuel]
    exact AssertEqualStep_completes env got expect (fun x e hx =>
      AssertEqualFuel_completes env n x e (by omega))

theorem AssertEqual_never_out_of_fuel (env : Env) (got expect : Value) :
    AssertEqual env got expect ≠ .error .fuel :=
  AssertEqualFuel_completes env _ got expect (Nat.lt_succ_self _)

/-! ## Claims about AssertEqual -/

/-- C1 (reflexivity): comparing any value with itself, `AssertEqual(x, x)`,
completes and reports no mismatch, whatever the nesting of `x`. -/
theorem AssertEqual_refl (env : Env) (x : Value) : AssertEqual env x x = .ok [] := by
  rw [AssertEqual_eq_step]
  unfold AssertEqualStep
  by_cases h : DeepEqual x x = true <;> simp [h]

/-! ## Unfolding AssertEqual past its fast path -/

theorem AssertEqualStep_slow (env : Env) (cmp : Value → Value → Except Fault (List Mismatch))
    {got expect g e : Value} (hd : DeepEqual got expect = false)
    (hs : Sprint env got ≠ Sprint env expect) (hv : indirectValid got = indirectValid expect)
    (hu : unwrapBoth env got expect = .ok (g, e)) :
    AssertEqualStep env cmp got expect = compareKinds env cmp g e := by
  unfold AssertEqualStep
  simp [hd, hs, hv, hu]

theorem AssertEqualStep_absent (env : Env) (cmp : Value → Value → Except Fault (List Mismatch))
    {got expect : Value} (hd : DeepEqual got expect = false)
    (hs : Sprint env got ≠ Sprint env expect) (hv : indirectValid got ≠ indirectValid expect) :
    AssertEqualStep env cmp got expect = .ok [⟨[], .absent⟩] := by
  unfold AssertEqualStep
  simp [hd, hs, hv]

theorem unwrapValuer_of_none {env : Env} {x : Value} (h : valuerOf env x = none) :
    unwrapValuer env x = .ok x := by
  simp [unwrapValuer, h]

theorem DeepEqualL_length : ∀ (xs ys : List Value), DeepEqualL xs ys = true → xs.length = ys.length
  | [], [], _ => rfl
  | [], _ :: _, h => by simp [DeepEqualL] at h
  | _ :: _, [], h => by simp [DeepEqualL] at h
  | _ :: xs, _ :: ys, h => by
    simp only [DeepEqualL, Bool.and_eq_true] at h
    simp [DeepEqualL_length xs ys h.2]

theorem unwrapBoth_slices {env : Env} {n1 n2 : String} {e1 e2 : GoType} {nil1 nil2 : Bool}
    {xs ys : List Value}
    (hv1 : valuerOf env (.slice n1 e1 nil1 xs) = none)
    (hv2 : valuerOf env (.slice n2 e2 nil2 ys) = none) :
    unwrapBoth env (.slice n1 e1 nil1 xs) (.slice n2 e2 nil2 ys)
      = .ok (.slice n1 e1 nil1 xs, .slice n2 e2 nil2 ys) := by
  simp [unwrapBoth, unwrapValuer_of_none hv1, unwrapValuer_of_none hv2, indirectInterface, bind,
    Except.bind, pure, Except.pure]

/-- C5, as stated, fails: `[]string{"a b"}` and `[]string{"a", "b"}` have
lengths 1 and 2 and the same rendering `[a b]`, so the fast path accepts them
and no mismatch is reported. -/
theorem length_mismatch_counterexample :
    [Value.str "a b"].length ≠ [Value.str "a", Value.str "b"].length ∧
      AssertEqual sampleEnv (strings ["a b"]) (strings ["a", "b"]) = .ok [] := by
  decide

/-- C5 (amended): for two slices whose lengths differ, whose renderings differ
and of which neither is a `driver.Valuer`, `AssertEqual` reports exactly one
mismatch, the length mismatch at the top level; no element is compared: the
result is the same whatever the recursive calls (`cmp`) would return. -/
theorem length_mismatch_short_circuit (env : Env) (n1 n2 : String) (e1 e2 : GoType)
    (nil1 nil2 : Bool) (xs ys : List Value)
    (hlen : xs.length ≠ ys.length)
    (hs : Sprint env (.slice n1 e1 nil1 xs) ≠ Sprint env (.slice n2 e2 nil2 ys))
    (hv1 : valuerOf env (.slice n1 e1 nil1 xs) = none)
    (hv2 : valuerOf env (.slice n2 e2 nil2 ys) = none) :
    AssertEqual env (.slice n1 e1 nil1 xs) (.slice n2 e2 nil2 ys)
        = .ok [⟨[], .length ys.length xs.length⟩] ∧
      ∀ cmp, AssertEqualStep env cmp (.slice n1 e1 nil1 xs) (.slice n2 e2 nil2 ys)
        = .ok [⟨[], .length ys.length xs.length⟩] := by
  have hd : DeepEqual (.slice n1 e1 nil1 xs) (.slice n2 e2 nil2 ys) = false := by
    cases h : DeepEqual (.slice n1 e1 nil1 xs) (.slice n2 e2 nil2 ys)
    · rfl
    · simp only [DeepEqual, Bool.and_eq_true] at h
      exact absurd (DeepEqualL_length xs ys h.2) hlen
  have key : ∀ cmp, AssertEqualStep env cmp (.slice n1 e1 nil1 xs) (.slice n2 e2 nil2 ys)
      = .ok [⟨[], .length ys.length xs.length⟩] := by
    intro cmp
    rw [AssertEqualStep_slow env cmp hd hs rfl (unwrapBoth_slices hv1 hv2)]
    simp [compareKinds, isValid, sliceElems, hlen, pure, Except.pure]
  exact ⟨by rw [AssertEqual_eq_step]; exact key _, key⟩

/-- Witness for C5: `[]int64{1, 2, 3}` against `[]int64{1, 2}`, of lengths 3 and
2 and of different renderings, gives the one length mismatch. -/
theorem length_mismatch_short_circuit_witness :
    [Value.int64 1, .int64 2, .int64 3].length ≠ [Value.int64 1, .int64 2].length ∧
      Sprint sampleEnv (int64s [1, 2, 3]) ≠ Sprint sampleEnv (int64s [1, 2]) ∧
      valuerOf sampleEnv (int64s [1, 2, 3]) = none ∧ valuerOf sampleEnv (int64s [1, 2]) = none ∧
      AssertEqual sampleEnv (int64s [1, 2, 3]) (int64s [1, 2]) = .ok [⟨[], .length 2 3⟩] :=
  ⟨by decide, by decide, by decide, by decide,
    (length_mismatch_short_circuit sampleEnv "" "" .int64 .int64 false false
      [.int64 1, .int64 2, .int64 3] [.int64 1, .int64 2] (by decide) (by decide) (by decide)
      (by decide)).1⟩

/-- C6, as stated, fails: the fast path of line 55 accepts an absent value
against a struct that renders like it.  A struct type `Quiet` whose `String()`
returns `"<nil>"` renders like nil; with `func (l *Loud) String()` returning
`"loud"`, the nil `*Loud` and `&Loud{N: 1}` both render `loud`.  Nothing is
reported, in either order. -/
theorem absent_vs_present_counterexample :
    AssertEqual sampleEnv .nil (.struct "Quiet" []) = .ok [] ∧
      AssertEqual sampleEnv (.struct "Quiet" []) .nil = .ok [] ∧
      AssertEqual sampleEnv (.nilPtr (.struct "Loud"))
        (.ptr (.struct "Loud") 4096 (.struct "Loud" [("N", .int64 1)])) = .ok [] ∧
      AssertEqual sampleEnv (.ptr (.struct "Loud") 4096 (.struct "Loud" [("N", .int64 1)]))
        (.nilPtr (.struct "Loud")) = .ok [] := by
  decide

/-- C6 (amended): let `s` be a non-nil struct value or a non-nil pointer to a
struct, and let `a` be absent (nil or a nil pointer) with a rendering
(`fmt.Sprint`) different from that of `s`.  Comparing `a` with `s`, in either
order, reports exactly one mismatch at the top level, and the fields of `s` are
not visited: the result does not depend on the recursive calls (`cmp`). -/
theorem absent_vs_present (env : Env) (a s : Value)
    (ha : a = .nil ∨ ∃ t, a = .nilPtr t)
    (hstruct : (∃ n fs, s = .struct n fs) ∨ ∃ n addr fs, s = .ptr (.struct n) addr (.struct n fs))
    (hs : Sprint env a ≠ Sprint env s) :
    AssertEqual env a s = .ok [⟨[], .absent⟩] ∧ AssertEqual env s a = .ok [⟨[], .absent⟩] ∧
      ∀ cmp, AssertEqualStep env cmp a s = .ok [⟨[], .absent⟩] ∧
        AssertEqualStep env cmp s a = .ok [⟨[], .absent⟩] := by
  have hva : indirectValid a = false := by
    rcases ha with rfl | ⟨t, rfl⟩ <;> rfl
  have hvs : indirectValid s = true := by
    rcases hstruct with ⟨n, fs, rfl⟩ | ⟨n, addr, fs, rfl⟩ <;> rfl
  have hd1 : DeepEqual a s = false := by
    rcases ha with rfl | ⟨t, rfl⟩ <;> rcases hstruct with ⟨n, fs, rfl⟩ | ⟨n, addr, fs, rfl⟩ <;>
      simp [DeepEqual]
  have hd2 : DeepEqual s a = false := by
    rcases ha with rfl | ⟨t, rfl⟩ <;> rcases hstruct with ⟨n, fs, rfl⟩ | ⟨n, addr, fs, rfl⟩ <;>
      simp [DeepEqual]
  have key : ∀ cmp, AssertEqualStep env cmp a s = .ok [⟨[], .absent⟩] ∧
      AssertEqualStep env cmp s a = .ok [⟨[], .absent⟩] := by
    intro cmp
    constructor
    · exact AssertEqualStep_absent env cmp hd1 hs (by rw [hva, hvs]; decide)
    · exact AssertEqualStep_absent env cmp hd2 (fun h => hs h.symm) (by rw [hva, hvs]; decide)
  refine ⟨?_, ?_, key⟩
  · rw [AssertEqual_eq_step]; exact (key _).1
  · rw [AssertEqual_eq_step]; exact (key _).2

/-- Witness for C6: nil against `&User{Name: "u"}`, and the nil `*Loud` (rendered
`loud` by its method) against `User{Name: "u"}`. -/
theorem absent_vs_present_witness :
    (Sprint sampleEnv .nil ≠
        Sprint sampleEnv (.ptr (.struct "User") 4096 (.struct "User" [("Name", .str "u")])) ∧
      AssertEqual sampleEnv .nil (.ptr (.struct "User") 4096 (.struct "User" [("Name", .str "u")]))
        = .ok [⟨[], .absent⟩]) ∧
      (Sprint sampleEnv (.nilPtr (.struct "Loud")) ≠
        Sprint sampleEnv (.struct "User" [("Name", .str "u")]) ∧
      AssertEqual sampleEnv (.struct "User" [("Name", .str "u")]) (.nilPtr (.struct "Loud"))
        = .ok [⟨[], .absent⟩]) :=
  ⟨⟨by decide, (absent_vs_present sampleEnv .nil
      (.ptr (.struct "User") 4096 (.struct "User" [("Name", .str "u")]))
      (Or.inl rfl) (Or.inr ⟨"User", 4096, [("Name", .str "u")], rfl⟩) (by decide)).1⟩,
    ⟨by decide, (absent_vs_present sampleEnv (.nilPtr (.struct "Loud"))
      (.struct "User" [("Name", .str "u")])
      (Or.inr ⟨_, rfl⟩) (Or.inl ⟨"User", [("Name", .str "u")], rfl⟩) (by decide)).2.1⟩⟩

theorem AssertEqual_of_DeepEqual (env : Env) {a b : Value} (h : DeepEqual a b = true) :
    AssertEqual env a b = .ok [] := by
  rw [AssertEqual_eq_step]
  unfold AssertEqualStep
  simp [h]

theorem unwrapBoth_structs {env : Env} {n1 n2 : String} {fs gs : List (String × Value)}
    (hv1 : valuerOf env (.struct n1 fs) = none) (hv2 : valuerOf env (.struct n2 gs) = none) :
    unwrapBoth env (.struct n1 fs) (.struct n2 gs) = .ok (.struct n1 fs, .struct n2 gs) := by
  simp [unwrapBoth, unwrapValuer_of_none hv1, unwrapValuer_of_none hv2, indirectInterface, bind,
    Except.bind, pure, Except.pure]

theorem compareFields_equal_exported (env : Env) :
    ∀ (fs gs : List (String × Value)),
      List.Forall₂ (fun p q => p.1 = q.1 ∧ (isExported env p.1 = true → DeepEqual p.2 q.2 = true))
        fs gs →
      compareFields (AssertEqual env) (fs.map fun f => ⟨f.1, isExported env f.1, f.2⟩)
          (gs.map fun f => ⟨f.1, isExported env f.1, f.2⟩)
        = .ok ([], fs.any fun p => isExported env p.1)
  | [], [], _ => by simp [compareFields, pure, Except.pure]
  | p :: fs, q :: gs, h => by
    cases h with
    | cons hpq hrest =>
      have ih := compareFields_equal_exported env fs gs hrest
      simp only [List.map_cons, compareFields, List.any_cons]
      cases hex : isExported env p.1
      · simp [ih]
      · simp only [if_true, fieldInterface, ← hpq.1, hex, bind, Except.bind,
          AssertEqual_of_DeepEqual env (hpq.2 hex), ih]
        simp [inSubtest, pure, Except.pure]

/-- C7, as stated, fails: a struct type `Secret { Label string; code int64 }`
with a `Value()` method returning `code` is unwrapped before its fields are
looked at, so two values that differ only in the unexported `code` are reported
as a mismatch. -/
theorem unexported_ignored_counterexample :
    DeepEqual (.str "x") (.str "x") = true ∧
      AssertEqual sampleEnv (.struct "Secret" [("Label", .str "x"), ("code", .int64 1)])
        (.struct "Secret" [("Label", .str "x"), ("code", .int64 2)])
        = .ok [⟨[], .rendering⟩] := by
  decide

/-- C7 (amended): for two values of one struct type that is not a
`driver.Valuer` and has at least one exported field, if the exported fields are
pairwise deeply equal, `AssertEqual` reports no mismatch, whatever the
unexported fields hold. -/
theorem unexported_ignored (env : Env) (n : String) (fs gs : List (String × Value))
    (hfields : List.Forall₂
      (fun p q => p.1 = q.1 ∧ (isExported env p.1 = true → DeepEqual p.2 q.2 = true)) fs gs)
    (hex : ∃ p ∈ fs, isExported env p.1 = true)
    (hv : valuerOf env (.struct n fs) = none) :
    AssertEqual env (.struct n fs) (.struct n gs) = .ok [] := by
  have hv2 : valuerOf env (.struct n gs) = none := by
    simp only [valuerOf] at hv ⊢
    split at hv
    · simp at hv
    · rename_i h; simp [h]
  rw [AssertEqual_eq_step]
  unfold AssertEqualStep
  split
  · rfl
  split
  · rfl
  have hany : (fs.any fun p => isExported env p.1) = true := by
    obtain ⟨p, hp, hpe⟩ := hex
    exact List.any_eq_true.mpr ⟨p, hp, hpe⟩
  simp [indirectValid, unwrapBoth_structs hv hv2, compareKinds, isValid, sliceElems, structFields,
    hfields.length_eq, compareFields_equal_exported env fs gs hfields, hany, bind, Except.bind,
    pure, Except.pure]

/-- Witness for C7: two `Item{ID, Name, internalCache}` differing only in
`internalCache` are neither deeply equal nor rendered alike, and no mismatch is
reported. -/
theorem unexported_ignored_witness :
    DeepEqual
        (.struct "Item" [("ID", .int64 1), ("Name", .str "n"), ("internalCache", .int64 10)])
        (.struct "Item" [("ID", .int64 1), ("Name", .str "n"), ("internalCache", .int64 20)])
        = false ∧
      Sprint sampleEnv
        (.struct "Item" [("ID", .int64 1), ("Name", .str "n"), ("internalCache", .int64 10)]) ≠
      Sprint sampleEnv
        (.struct "Item" [("ID", .int64 1), ("Name", .str "n"), ("internalCache", .int64 20)]) ∧
      AssertEqual sampleEnv
        (.struct "Item" [("ID", .int64 1), ("Name", .str "n"), ("internalCache", .int64 10)])
        (.struct "Item" [("ID", .int64 1), ("Name", .str "n"), ("internalCache", .int64 20)])
        = .ok [] :=
  ⟨by decide, by decide,
    unexported_ignored sampleEnv "Item"
      [("ID", .int64 1), ("Name", .str "n"), ("internalCache", .int64 10)]
      [("ID", .int64 1), ("Name", .str "n"), ("internalCache", .int64 20)]
      (.cons ⟨rfl, fun _ => by decide⟩ (.cons ⟨rfl, fun _ => by decide⟩
        (.cons ⟨rfl, fun h => absurd h (by decide)⟩ .nil)))
      ⟨("ID", .int64 1), by simp, by decide⟩ (by decide)⟩

theorem inSubtest_length (name : String) (ms : List Mismatch) :
    (inSubtest name ms).length = ms.length := by
  simp [inSubtest]

theorem elementReports_length (typeName : String) :
    ∀ (rs : List (List Mismatch)) (i : Nat),
      (elementReports typeName i rs).length = (rs.map List.length).sum
  | [], _ => by simp [elementReports]
  | r :: rs, i => by
    have ih := elementReports_length typeName rs (i + 1)
    simp only [elementReports, List.enumFrom_cons, List.map_cons, List.flatten_cons,
      List.length_append, inSubtest_length, List.sum_cons] at ih ⊢
    rw [ih]

theorem compareElems_ok {cmp : Value → Value → Except Fault (List Mismatch)} (tn : String) :
    ∀ (xs ys : List Value) (rs : List (List Mismatch)) (i : Nat),
      List.Forall₂ (fun p r => cmp p.1 p.2 = .ok r) (xs.zip ys) rs →
      compareElems cmp tn i xs ys = .ok (elementReports tn i rs)
  | [], _, rs, _, h => by
    simp only [List.zip_nil_left] at h
    cases h
    simp [compareElems, elementReports, pure, Except.pure]
  | _ :: _, [], rs, _, h => by
    simp only [List.zip_nil_right] at h
    cases h
    simp [compareElems, elementReports, pure, Except.pure]
  | x :: xs, y :: ys, rs, i, h => by
    simp only [List.zip_cons_cons] at h
    cases h with
    | cons hr hrest =>
      have ih := compareElems_ok tn xs ys _ (i + 1) hrest
      simp only [compareElems, hr, ih, bind, Except.bind, pure, Except.pure]
      simp [elementReports, List.enumFrom_cons]

/-- C9, as stated, fails: a slice type `Labels []string` with a `Value()`
method is unwrapped before its elements are looked at.  For
`Labels{"ab", "c"}` and `Labels{"a", "bc"}` both methods return `"abc"` and
nothing is reported, although the element comparisons report two mismatches. -/
theorem elementwise_counterexample :
    AssertEqual sampleEnv (.slice "Labels" .string false [.str "ab", .str "c"])
        (.slice "Labels" .string false [.str "a", .str "bc"]) = .ok [] ∧
      AssertEqual sampleEnv (.str "ab") (.str "a") = .ok [⟨[], .rendering⟩] ∧
      AssertEqual sampleEnv (.str "c") (.str "bc") = .ok [⟨[], .rendering⟩] := by
  decide

/-- C9 (amended): for two slices of the same length that the fast path does
not accept (not deeply equal, different renderings) and of which neither is a
`driver.Valuer`, if the comparisons of the elements at each index report `rs`,
then `AssertEqual` reports exactly these mismatches, each in the subtest of its
index, in index order; their number is the sum over the indices. -/
theorem elementwise_collection (env : Env) (n1 n2 : String) (e1 e2 : GoType)
    (nil1 nil2 : Bool) (xs ys : List Value) (rs : List (List Mismatch))
    (hlen : xs.length = ys.length)
    (hd : DeepEqual (.slice n1 e1 nil1 xs) (.slice n2 e2 nil2 ys) = false)
    (hs : Sprint env (.slice n1 e1 nil1 xs) ≠ Sprint env (.slice n2 e2 nil2 ys))
    (hv1 : valuerOf env (.slice n1 e1 nil1 xs) = none)
    (hv2 : valuerOf env (.slice n2 e2 nil2 ys) = none)
    (hrs : List.Forall₂ (fun p r => AssertEqual env p.1 p.2 = .ok r) (xs.zip ys) rs) :
    AssertEqual env (.slice n1 e1 nil1 xs) (.slice n2 e2 nil2 ys)
        = .ok (elementReports n1 0 rs) ∧
      (elementReports n1 0 rs).length = (rs.map List.length).sum := by
  refine ⟨?_, elementReports_length n1 rs 0⟩
  rw [AssertEqual_eq_step, AssertEqualStep_slow env _ hd hs rfl (unwrapBoth_slices hv1 hv2)]
  simp [compareKinds, isValid, sliceElems, sliceTypeName, hlen, compareElems_ok n1 xs ys rs 0 hrs]

/-- Witness for C9: `[]int64{1, 2, 3}` against `[]int64{1, 5, 4}` reports the
mismatches at the indices 1 and 2, the first not hiding the second. -/
theorem elementwise_collection_witness :
    DeepEqual (int64s [1, 2, 3]) (int64s [1, 5, 4]) = false ∧
      Sprint sampleEnv (int64s [1, 2, 3]) ≠ Sprint sampleEnv (int64s [1, 5, 4]) ∧
      AssertEqual sampleEnv (int64s [1, 2, 3]) (int64s [1, 5, 4])
        = .ok [⟨[" #1"], .rendering⟩, ⟨[" #2"], .rendering⟩] :=
  ⟨by decide, by decide,
    (elementwise_collection sampleEnv "" "" .int64 .int64 false false
      [.int64 1, .int64 2, .int64 3] [.int64 1, .int64 5, .int64 4]
      [[], [⟨[], .rendering⟩], [⟨[], .rendering⟩]] (by decide) (by decide) (by decide) (by decide)
      (by decide)
      (.cons (by decide) (.cons (by decide) (.cons (by decide) .nil)))).1⟩

/-- C2 (the code at the failing inputs): `AssertEqual` panics.  For
`sql.NullString{"a", false}` against `sql.NullString{"b", false}` both `Value()`
calls return nil, the presence test of line 80 passes with both sides absent,
and line 123 calls `Type()` on the zero Value.  For two structs whose fields
differ in visibility at the same position, line 111 calls `Interface()` on the
unexported field of `expect`. -/
theorem AssertEqual_panics :
    AssertEqual sampleEnv (nullString "a" false) (nullString "b" false)
        = .error (.panic "reflect: call of reflect.Value.Type on zero Value") ∧
      AssertEqual sampleEnv (.struct "A" [("X", .int64 1), ("y", .int64 2)])
          (.struct "B" [("x", .int64 1), ("Y", .int64 3)])
        = .error (.panic
          "reflect.Value.Interface: cannot return value obtained from unexported field or method") := by
  decide

/-- C8 (the code at the failing input): `got = "B"` (string) and
`expect = int64(65)`.  Only the type of `expect` is convertible to the type of
`got`; converted to a string `expect` is `"A"`, whose rendering differs from
that of `got`, yet `AssertEqual` reports nothing, because line 127 converts
`got` (to its own type) and stores it in `expect`.  With the arguments swapped
the first branch converts correctly and one mismatch is reported. -/
theorem coercion_second_branch_reports_nothing :
    convertibleTo sampleEnv .string .int64 = false ∧
      convertibleTo sampleEnv .int64 .string = true ∧
      Sprint sampleEnv (.str "B") ≠ Sprint sampleEnv (convert (.int64 65) .string) ∧
      AssertEqual sampleEnv (.str "B") (.int64 65) = .ok [] ∧
      AssertEqual sampleEnv (.int64 65) (.str "B") = .ok [⟨[], .rendering⟩] := by
  decide

/-- Two struct types with identical field lists convert to each other:
`k1{x: 1}` against `k2{x: 2}` has no exported field, is converted by line 124
and is reported by line 51; a type `k3` that does not convert is reported by
line 130. -/
theorem struct_conversion_example :
    AssertEqual sampleEnv (.struct "k1" [("x", .int64 1)]) (.struct "k2" [("x", .int64 2)])
        = .ok [⟨[], .rendering⟩] ∧
      AssertEqual sampleEnv (.struct "k1" [("x", .int64 1)]) (.struct "k3" [("x", .int64 2)])
        = .ok [⟨[], .incomparable⟩] := by
  decide

/-! ## Timestamps -/

theorem roundSecond_div_inj (a e : Time) :
    roundSecond a / second = roundSecond e / second ↔ roundSecond a = roundSecond e := by
  unfold roundSecond second
  simp only []
  split <;> split <;> omega

theorem truncateSecond_div_inj (a e : Time) :
    truncateSecond a / second = truncateSecond e / second ↔ truncateSecond a = truncateSecond e := by
  unfold truncateSecond second
  omega

theorem AssertEqual_time (env : Env) (a e : Time)
    (hd : DeepEqual (.time a) (.time e) = false)
    (hs : Sprint env (.time a) ≠ Sprint env (.time e)) :
    AssertEqual env (.time a) (.time e) = isEqual env (.time a) (.time e) := by
  have hu : unwrapBoth env (.time a) (.time e) = .ok (.time a, .time e) := by
    simp [unwrapBoth, unwrapValuer, valuerOf, indirectInterface, bind, Except.bind, pure,
      Except.pure]
  rw [AssertEqual_eq_step, AssertEqualStep_slow env _ hd hs rfl hu]
  simp [compareKinds, isValid, sliceElems, structFields, compareFields, coerce, Value.typeOf,
    convertibleTo, identicalUnderlying, convert, bind, Except.bind, pure, Except.pure]

/-- C4, as stated, fails: the fast path of line 55 accepts two timestamps that
render alike.  `time.Time.String` prints the zone offset in hours and minutes,
so `time.Unix(1000, 0)` in a zone 19 min 32 s east of UTC and
`time.Unix(1032, 0)` in a zone 19 min east of UTC, both named `LMT`, render as
`1970-01-01 00:36:12 +0019 LMT`; nothing is reported although the instants are
32 s apart and differ after rounding and after truncation. -/
theorem timestamp_tolerance_counterexample :
    Sprint zonedEnv (.time ⟨1000000000000, none, "LMT+0:19:32"⟩)
        = "1970-01-01 00:36:12 +0019 LMT" ∧
      Sprint zonedEnv (.time ⟨1032000000000, none, "LMT+0:19:00"⟩)
        = "1970-01-01 00:36:12 +0019 LMT" ∧
      AssertEqual zonedEnv (.time ⟨1000000000000, none, "LMT+0:19:32"⟩)
        (.time ⟨1032000000000, none, "LMT+0:19:00"⟩) = .ok [] ∧
      roundSecond ⟨1000000000000, none, "LMT+0:19:32"⟩
        ≠ roundSecond ⟨1032000000000, none, "LMT+0:19:00"⟩ ∧
      truncateSecond ⟨1000000000000, none, "LMT+0:19:32"⟩
        ≠ truncateSecond ⟨1032000000000, none, "LMT+0:19:00"⟩ := by
  decide

/-- C4 (amended): two timestamps with the same rendering (`fmt.Sprint`) are
accepted by the fast path.  For two timestamps `a` (got) and `e` (expect) whose
renderings differ, `AssertEqual` reports no mismatch exactly when the two are the
same instant after rounding to the nearest second or after truncating to the
second, and reports exactly one mismatch otherwise (the second-precision UTC
format being injective, as it is in the Go library). -/
theorem timestamp_tolerance (env : Env) (hFormat : Function.Injective env.formatUTC)
    (a e : Time) :
    (Sprint env (.time a) = Sprint env (.time e) → AssertEqual env (.time a) (.time e) = .ok []) ∧
      (Sprint env (.time a) ≠ Sprint env (.time e) →
        (AssertEqual env (.time a) (.time e) = .ok [] ↔
          (roundSecond a = roundSecond e ∨ truncateSecond a = truncateSecond e)) ∧
        (¬ (roundSecond a = roundSecond e ∨ truncateSecond a = truncateSecond e) →
          AssertEqual env (.time a) (.time e) = .ok [⟨[], .timeRound⟩])) := by
  have hr : roundFormat env a = roundFormat env e ↔ roundSecond a = roundSecond e := by
    unfold roundFormat
    rw [hFormat.eq_iff, roundSecond_div_inj]
  have ht : truncateFormat env a = truncateFormat env e ↔ truncateSecond a = truncateSecond e := by
    unfold truncateFormat
    rw [hFormat.eq_iff, truncateSecond_div_inj]
  constructor
  · intro hs
    rw [AssertEqual_eq_step]
    unfold AssertEqualStep
    by_cases hd : DeepEqual (.time a) (.time e) = true <;> simp [hd, hs]
  · intro hs
    have hd : DeepEqual (.time a) (.time e) = false := by
      cases h : DeepEqual (.time a) (.time e)
      · rfl
      · have hae : a = e := by simpa [DeepEqual] using h
        subst hae
        exact absurd rfl hs
    rw [AssertEqual_time env a e hd hs]
    unfold isEqual
    simp only [ne_eq, hr, ht]
    by_cases h1 : roundSecond a = roundSecond e
    · simp [h1]
    · by_cases h2 : truncateSecond a = truncateSecond e
      · simp [h2]
      · simp [h1, h2]

theorem digitChar_inj : ∀ a b : Nat, a < 10 → b < 10 → Nat.digitChar a = Nat.digitChar b → a = b := by
  intro a b ha hb h
  interval_cases a <;> interval_cases b <;> first | rfl | (exact absurd h (by decide))

theorem map_digitChar_inj : ∀ (l1 l2 : List Nat), (∀ d ∈ l1, d < 10) → (∀ d ∈ l2, d < 10) →
    l1.map Nat.digitChar = l2.map Nat.digitChar → l1 = l2
  | [], [], _, _, _ => rfl
  | [], _ :: _, _, _, h => by simp at h
  | _ :: _, [], _, _, h => by simp at h
  | x :: l1, y :: l2, h1, h2, h => by
    simp only [List.map_cons, List.cons.injEq] at h
    have hxy := digitChar_inj x y (h1 x (List.mem_cons_self _ _)) (h2 y (List.mem_cons_self _ _)) h.1
    have ht := map_digitChar_inj l1 l2 (fun d hd => h1 d (List.mem_cons_of_mem _ hd))
      (fun d hd => h2 d (List.mem_cons_of_mem _ hd)) h.2
    rw [hxy, ht]

theorem decimalChars_inj {m n : Nat} (h : decimalChars m = decimalChars n) : m = n := by
  unfold decimalChars at h
  have h10 : ∀ k : Nat, ∀ d ∈ (Nat.digits 10 k).reverse, d < 10 := fun k d hd =>
    Nat.digits_lt_base (by norm_num) (List.mem_reverse.mp hd)
  have := map_digitChar_inj _ _ (h10 m) (h10 n) h
  exact Nat.digits.injective 10 (List.reverse_injective this)

theorem signedDecimal_injective : Function.Injective signedDecimal := by
  intro x y h
  unfold signedDecimal at h
  have h := congrArg String.data h
  simp only [List.cons.injEq] at h
  have hn := decimalChars_inj h.2
  have hsign := h.1
  by_cases hx : x < 0 <;> by_cases hy : y < 0 <;> simp [hx, hy] at hsign <;> omega

/-- Witness for C4, on the examples of the specification:
`2024-01-01T00:00:00.400Z` against `2024-01-01T00:00:00.000Z` rounds to the same
second and is accepted; against `2024-01-01T00:00:01.400Z` it is neither the
same second after rounding nor after truncation, and one mismatch is reported.
The renderings differ in both pairs. -/
theorem timestamp_tolerance_witness :
    Function.Injective sampleEnv.formatUTC ∧
      Sprint sampleEnv (.time ⟨1704067200400000000, none, "UTC"⟩)
        ≠ Sprint sampleEnv (.time ⟨1704067200000000000, none, "UTC"⟩) ∧
      AssertEqual sampleEnv (.time ⟨1704067200400000000, none, "UTC"⟩)
        (.time ⟨1704067200000000000, none, "UTC"⟩) = .ok [] ∧
      Sprint sampleEnv (.time ⟨1704067200400000000, none, "UTC"⟩)
        ≠ Sprint sampleEnv (.time ⟨1704067201400000000, none, "UTC"⟩) ∧
      AssertEqual sampleEnv (.time ⟨1704067200400000000, none, "UTC"⟩)
        (.time ⟨1704067201400000000, none, "UTC"⟩) = .ok [⟨[], .timeRound⟩] :=
  have h1 : Sprint sampleEnv (.time ⟨1704067200400000000, none, "UTC"⟩)
      ≠ Sprint sampleEnv (.time ⟨1704067200000000000, none, "UTC"⟩) :=
    fun h => absurd (signedDecimal_injective h) (by decide)
  have h2 : Sprint sampleEnv (.time ⟨1704067200400000000, none, "UTC"⟩)
      ≠ Sprint sampleEnv (.time ⟨1704067201400000000, none, "UTC"⟩) :=
    fun h => absurd (signedDecimal_injective h) (by decide)
  ⟨signedDecimal_injective, h1,
    ((timestamp_tolerance sampleEnv signedDecimal_injective _ _).2 h1).1.mpr (Or.inl (by decide)),
    h2, ((timestamp_tolerance sampleEnv signedDecimal_injective _ _).2 h2).2 (by decide)⟩

/-! ## GetUser -/

theorem GetUserFuel_zero_config (now : Nat → Time) (fuel k : Nat) (name id : String) :
    GetUserFuel now (fuel + 1) k name id Config.zero = some (plainUser now k name, k + 1) := by
  simp [GetUserFuel, Config.zero, forLoop, forLoopM, plainUser, bind, Option.bind, pure]

theorem foldl_append_singleton {α β : Type} (g : β → α) :
    ∀ (l : List β) (acc : List α), l.foldl (fun s i => s ++ [g i]) acc = acc ++ l.map g
  | [], acc => by simp
  | x :: l, acc => by
    simp only [List.foldl_cons, List.map_cons]
    rw [foldl_append_singleton g l]
    simp

theorem forLoop_append {α : Type} (n : Int) (g : Nat → α) :
    forLoop n (fun i s => s ++ [g i]) [] = (List.range n.toNat).map g := by
  unfold forLoop
  rw [foldl_append_singleton g]
  simp

theorem foldlM_nested_users (now : Nat → Time) (nm : Nat → String) :
    ∀ (l : List Nat) (acc : List User) (k : Nat),
      l.foldlM (fun (s : List User × Nat) i => some (s.1 ++ [plainUser now s.2 (nm i)], s.2 + 1))
          (acc, k)
        = some (acc ++ ((l.enumFrom k).map fun ji => plainUser now ji.1 (nm ji.2)), k + l.length)
  | [], acc, k => by simp [pure]
  | x :: l, acc, k => by
    simp only [List.foldlM_cons, bind, Option.bind]
    rw [foldlM_nested_users now nm l]
    simp only [List.enumFrom_cons, List.map_cons, List.length_cons, List.append_assoc,
      List.singleton_append]
    congr 2
    omega

theorem forLoopM_nested_users (now : Nat → Time) (nm : Nat → String) (n : Int) (k : Nat) :
    forLoopM n (fun i (s : List User × Nat) => some (s.1 ++ [plainUser now s.2 (nm i)], s.2 + 1))
        ([], k)
      = some (((List.range n.toNat).enumFrom k).map (fun ji => plainUser now ji.1 (nm ji.2)),
          k + n.toNat) := by
  unfold forLoopM
  rw [foldlM_nested_users now nm]
  simp

theorem plainUser_noAssociations (now : Nat → Time) (k : Nat) (name : String) :
    (plainUser now k name).noAssociations := by
  simp [User.noAssociations, plainUser, User.Account, User.Pets, User.Toys, User.Company,
    User.Manager, User.Team, User.Languages, User.Friends, User.NamedPet]

theorem map_name_nested (now : Nat → Time) (nm : Nat → String) (l : List Nat) (k : Nat) :
    ((l.enumFrom k).map fun ji => plainUser now ji.1 (nm ji.2)).map User.Name = l.map nm := by
  induction l generalizing k with
  | nil => simp
  | cons x l ih =>
    simp only [List.enumFrom_cons, List.map_cons, ih]
    rfl

theorem mem_nested_noAssociations (now : Nat → Time) (nm : Nat → String) (l : List Nat) (k : Nat)
    (u : User) (h : u ∈ (l.enumFrom k).map fun ji => plainUser now ji.1 (nm ji.2)) :
    u.noAssociations := by
  obtain ⟨ji, _, rfl⟩ := List.mem_map.mp h
  exact plainUser_noAssociations now _ _

/-- Closed form of `GetUser` for any budget of at least two levels. -/
theorem GetUserFuel_closed (now : Nat → Time) (fuel k : Nat) (name id : String) (config : Config) :
    GetUserFuel now (fuel + 2) k name id config =
      some (User.mk name 18 ⟨⟨roundSecond (now k), none, (now k).loc⟩, true⟩
        (if config.Account then ⟨name ++ "_account"⟩ else ⟨""⟩)
        ((List.range config.Pets.toNat).map fun i => ⟨name ++ "_pet_" ++ Itoa (i + 1)⟩)
        ((List.range config.Toys.toNat).map fun i => ⟨name ++ "_toy_" ++ Itoa (i + 1)⟩)
        (if config.Company then ⟨"company-" ++ name⟩ else ⟨""⟩)
        (if config.Manager then some (plainUser now (k + 1) (name ++ "_manager")) else none)
        (((List.range config.Team.toNat).enumFrom (k + 1 + (if config.Manager then 1 else 0))).map
          fun ji => plainUser now ji.1 (name ++ "_team_" ++ Itoa (ji.2 + 1)))
        ((List.range config.Languages.toNat).map fun i =>
          ⟨name ++ "_locale_" ++ Itoa (i + 1), name ++ "_locale_" ++ Itoa (i + 1)⟩)
        (((List.range config.Friends.toNat).enumFrom
            (k + 1 + (if config.Manager then 1 else 0) + config.Team.toNat)).map
          fun ji => plainUser now ji.1 (name ++ "_friend_" ++ Itoa (ji.2 + 1)))
        (if config.NamedPet then some ⟨name ++ "_namepet"⟩ else none),
        k + 1 + (if config.Manager then 1 else 0) + config.Team.toNat + config.Friends.toNat) := by
  rw [GetUserFuel]
  simp only [forLoop_append, GetUserFuel_zero_config, bind, Option.bind, pure]
  cases config.Manager <;> simp [forLoopM_nested_users, Option.map]
theorem toNat_max_zero (n : Int) : (max 0 n).toNat = n.toNat := by
  omega

theorem plainUser_built (now : Nat → Time) (j : Nat) (nm : String) :
    GetUser now j nm "" Config.zero = some (plainUser now j nm, j + 1) :=
  GetUserFuel_zero_config now 1 j nm ""

theorem mem_nested_built (now : Nat → Time) (nm : Nat → String) (l : List Nat) (k : Nat)
    (u : User) (h : u ∈ (l.enumFrom k).map fun ji => plainUser now ji.1 (nm ji.2)) :
    ∃ j, GetUser now j u.Name "" Config.zero = some (u, j + 1) := by
  obtain ⟨ji, _, rfl⟩ := List.mem_map.mp h
  exact ⟨ji.1, plainUser_built now _ _⟩

/-- C10 (fixture shape of `GetUser`): for every clock, name, id and `Config`,
`GetUser` returns (with any recursion budget of two levels or more) a user with
`Name = name` and `Age = 18`; `Pets`, `Toys`, `Team`, `Languages` and `Friends`
have `max(0, n)` entries for the respective count `n` of the `Config`, the entry
at position `i` being named `name`, the infix of the association and the decimal
of `i + 1`; `Account`, `Company`, `Manager` and `NamedPet` are set exactly when
their flag is true; the manager, the team members and the friends are built with
the empty `Config` and have no associations; the returned value does not depend
on `id`. -/
theorem GetUser_shape (now : Nat → Time) (k : Nat) (name id : String) (config : Config) :
    ∃ u k', GetUser now k name id config = some (u, k') ∧
      (∀ fuel, GetUserFuel now (fuel + 2) k name id config = some (u, k')) ∧
      (∀ id', GetUser now k name id' config = some (u, k')) ∧
      u.Name = name ∧ u.Age = 18 ∧
      u.Pets.map Pet.Name =
        (List.range (max 0 config.Pets).toNat).map (fun i => name ++ "_pet_" ++ Itoa (i + 1)) ∧
      u.Toys.map Toy.Name =
        (List.range (max 0 config.Toys).toNat).map (fun i => name ++ "_toy_" ++ Itoa (i + 1)) ∧
      u.Team.map User.Name =
        (List.range (max 0 config.Team).toNat).map (fun i => name ++ "_team_" ++ Itoa (i + 1)) ∧
      u.Languages =
        (List.range (max 0 config.Languages).toNat).map (fun i =>
          ⟨name ++ "_locale_" ++ Itoa (i + 1), name ++ "_locale_" ++ Itoa (i + 1)⟩) ∧
      u.Friends.map User.Name =
        (List.range (max 0 config.Friends).toNat).map (fun i => name ++ "_friend_" ++ Itoa (i + 1)) ∧
      u.Account = (if config.Account then ⟨name ++ "_account"⟩ else ⟨""⟩) ∧
      u.Company = (if config.Company then ⟨"company-" ++ name⟩ else ⟨""⟩) ∧
      u.Manager.isSome = config.Manager ∧
      (∀ m, u.Manager = some m → m.Name = name ++ "_manager" ∧ m.plainlyBuilt now) ∧
      u.NamedPet = (if config.NamedPet then some ⟨name ++ "_namepet"⟩ else none) ∧
      (∀ m ∈ u.Team, m.plainlyBuilt now) ∧ (∀ m ∈ u.Friends, m.plainlyBuilt now) := by
  refine ⟨_, _, GetUserFuel_closed now 0 k name id config,
    fun fuel => GetUserFuel_closed now fuel k name id config,
    fun id' => GetUserFuel_closed now 0 k name id' config, rfl, rfl, ?_, ?_, ?_, ?_, ?_, rfl, rfl,
    ?_, ?_, rfl, ?_, ?_⟩
  · simp [User.Pets, toNat_max_zero]
  · simp [User.Toys, toNat_max_zero]
  · simp only [User.Team, toNat_max_zero]
    exact map_name_nested now (fun i => name ++ "_team_" ++ Itoa (i + 1)) _ _
  · simp [User.Languages, toNat_max_zero]
  · simp only [User.Friends, toNat_max_zero]
    exact map_name_nested now (fun i => name ++ "_friend_" ++ Itoa (i + 1)) _ _
  · cases config.Manager <;> simp [User.Manager]
  · intro m hm
    cases hc : config.Manager <;> simp [User.Manager, hc] at hm
    subst hm
    exact ⟨rfl, ⟨k + 1, plainUser_built now _ _⟩, plainUser_noAssociations now _ _⟩
  · intro m hm
    exact ⟨mem_nested_built now (fun i => name ++ "_team_" ++ Itoa (i + 1)) _ _ m hm,
      mem_nested_noAssociations now (fun i => name ++ "_team_" ++ Itoa (i + 1)) _ _ m hm⟩
  · intro m hm
    exact ⟨mem_nested_built now (fun i => name ++ "_friend_" ++ Itoa (i + 1)) _ _ m hm,
      mem_nested_noAssociations now (fun i => name ++ "_friend_" ++ Itoa (i + 1)) _ _ m hm⟩

/-! ## Symmetry -/

theorem beq_symm {α : Type} [BEq α] [LawfulBEq α] (x y : α) : (x == y) = (y == x) := by
  by_cases h : x = y
  · subst h; rfl
  · have h2 : ¬ y = x := fun h2 => h h2.symm
    simp [h, h2]

mutual
theorem DeepEqual_symm : ∀ (a b : Value), DeepEqual a b = DeepEqual b a
  | .nil, b => by cases b <;> simp [DeepEqual]
  | .bool x, b => by cases b <;> simp [DeepEqual, Bool.beq_comm]
  | .int64 x, b => by cases b <;> simp [DeepEqual, eq_comm]
  | .int8 x, b => by cases b <;> simp [DeepEqual, eq_comm]
  | .str x, b => by cases b <;> simp [DeepEqual, eq_comm]
  | .time x, b => by cases b <;> simp [DeepEqual, eq_comm]
  | .nilPtr e, b => by cases b <;> simp [DeepEqual, eq_comm]
  | .ptr e a t, b => by
    cases b <;> simp [DeepEqual]
    rename_i e2 a2 t2
    rw [DeepEqual_symm t t2, beq_symm e e2, beq_symm a a2]
  | .slice n e isNil xs, b => by
    cases b <;> simp [DeepEqual]
    rename_i n2 e2 nil2 ys
    rw [DeepEqualL_symm xs ys, beq_symm n n2, beq_symm e e2, beq_symm isNil nil2]
  | .struct n fs, b => by
    cases b <;> simp [DeepEqual]
    rename_i n2 gs
    rw [DeepEqualF_symm fs gs, beq_symm n n2]
theorem DeepEqualL_symm : ∀ (xs ys : List Value), DeepEqualL xs ys = DeepEqualL ys xs
  | [], [] => rfl
  | [], _ :: _ => by simp [DeepEqualL]
  | _ :: _, [] => by simp [DeepEqualL]
  | x :: xs, y :: ys => by
    simp only [DeepEqualL]
    rw [DeepEqual_symm x y, DeepEqualL_symm xs ys]
theorem DeepEqualF_symm : ∀ (fs gs : List (String × Value)), DeepEqualF fs gs = DeepEqualF gs fs
  | [], [] => rfl
  | [], _ :: _ => by simp [DeepEqualF]
  | _ :: _, [] => by simp [DeepEqualF]
  | (_, x) :: fs, (_, y) :: gs => by
    simp only [DeepEqualF]
    rw [DeepEqual_symm x y, DeepEqualF_symm fs gs]
end

theorem locations_subtests (name : String) (a b : Except Fault (List Mismatch)) :
    locations (do let r ← a; let rest ← b; pure (inSubtest name r ++ rest))
      = (locations a).bind fun la => (locations b).map fun lb => la.map (name :: ·) ++ lb := by
  cases a with
  | error f => rfl
  | ok r =>
    cases b with
    | error f => rfl
    | ok rest =>
      simp [locations, bind, Except.bind, pure, Except.pure, inSubtest, Function.comp]

theorem compareElems_symm {cmp : Value → Value → Except Fault (List Mismatch)} (tn : String) :
    ∀ (gs es : List Value) (i : Nat),
      (∀ p ∈ gs.zip es, locations (cmp p.1 p.2) = locations (cmp p.2 p.1)) →
      locations (compareElems cmp tn i gs es) = locations (compareElems cmp tn i es gs)
  | [], [], _, _ => rfl
  | [], _ :: _, _, _ => rfl
  | _ :: _, [], _, _ => rfl
  | g :: gs, e :: es, i, h => by
    have h1 := h (g, e) (by simp)
    have ih := compareElems_symm tn gs es (i + 1) (fun p hp => h p (by simp [hp]))
    simp only [compareElems, locations_subtests]
    simp only at h1
    rw [h1, ih]

theorem locationsF_fields (name : String) (a : Except Fault (List Mismatch))
    (b : Except Fault (List Mismatch × Bool)) :
    locationsF (do let r ← a; let rest ← b; pure (inSubtest name r ++ rest.1, true))
      = (locations a).bind fun la => (locationsF b).map fun lb => (la.map (name :: ·) ++ lb.1, true) := by
  cases a with
  | error f => rfl
  | ok r =>
    cases b with
    | error f => rfl
    | ok rest =>
      simp [locations, locationsF, bind, Except.bind, pure, Except.pure, inSubtest, Function.comp]

theorem compareFields_symm {cmp : Value → Value → Except Fault (List Mismatch)} :
    ∀ (gs es : List FieldView),
      List.Forall₂ (fun g e => g.name = e.name ∧ g.exported = e.exported ∧
        locations (cmp g.value e.value) = locations (cmp e.value g.value)) gs es →
      locationsF (compareFields cmp gs es) = locationsF (compareFields cmp es gs)
  | [], [], _ => rfl
  | g :: gs, e :: es, h => by
    cases h with
    | cons hge hrest =>
      have ih := compareFields_symm gs es hrest
      obtain ⟨hn, hx, hl⟩ := hge
      simp only [compareFields]
      cases hgx : g.exported
      · rw [hgx] at hx
        simp [← hx, ih]
      · rw [hgx] at hx
        simp only [← hx, if_true, fieldInterface, hgx]
        have e1 : ∀ (c : Value → Value → Except Fault (List Mismatch)) (x y : FieldView)
            (l1 l2 : List FieldView),
            (do let gv ← (Except.ok x.value : Except Fault Value)
                let ev ← (Except.ok y.value : Except Fault Value)
                let r ← c gv ev
                let rest ← compareFields c l1 l2
                pure (inSubtest x.name r ++ rest.1, true))
              = (do let r ← c x.value y.value
                    let rest ← compareFields c l1 l2
                    pure (inSubtest x.name r ++ rest.1, true)) := fun _ _ _ _ _ => rfl
        rw [e1, e1, locationsF_fields, locationsF_fields, hl, ih, hn]

theorem isEqual_of_not_time (env : Env) (x y : Value) (h : x.typeOf ≠ some .time) :
    isEqual env x y
      = if Sprint env x ≠ Sprint env y then .ok [⟨[], .rendering⟩] else .ok [] := by
  cases x <;> simp [Value.typeOf] at h <;> rfl

theorem isEqual_symm (env : Env) (x y : Value) (h : x.typeOf = y.typeOf) :
    locations (isEqual env x y) = locations (isEqual env y x) := by
  by_cases ht : x.typeOf = some .time
  · have hy : y.typeOf = some .time := by rw [← h, ht]
    cases x <;> simp [Value.typeOf] at ht
    cases y <;> simp [Value.typeOf] at hy
    rename_i a e
    simp only [isEqual, ne_eq, @eq_comm _ (roundFormat env e) (roundFormat env a),
      @eq_comm _ (truncateFormat env e) (truncateFormat env a)]
  · have hy : y.typeOf ≠ some .time := by rw [← h]; exact ht
    rw [isEqual_of_not_time env x y ht, isEqual_of_not_time env y x hy]
    simp only [ne_eq, @eq_comm _ (Sprint env y) (Sprint env x)]

theorem convertibleTo_self (env : Env) (t : GoType) : convertibleTo env t t = true := by
  cases t <;> simp [convertibleTo, identicalUnderlying]

theorem convert_self {x : Value} {t : GoType} (h : x.typeOf = some t) : convert x t = x := by
  simp [convert, h]

theorem coerce_symm (env : Env) (x y : Value) (h : x.typeOf = y.typeOf) :
    locations (coerce env x y) = locations (coerce env y x) := by
  unfold coerce
  cases hx : x.typeOf with
  | none => rw [← h, hx]
  | some t =>
    have hy : y.typeOf = some t := by rw [← h, hx]
    simp only [hy, convertibleTo_self, if_true, convert_self hx, convert_self hy]
    exact isEqual_symm env x y h

theorem sameShape_nil_right (env : Env) (x : Value) : sameShape env x .nil = true := by
  cases x <;> simp [sameShape]

theorem sameShapeL_zip (env : Env) : ∀ (gs es : List Value), sameShapeL env gs es = true →
    ∀ p ∈ gs.zip es, sameShape env p.1 p.2 = true
  | [], _, _, p, hp => by simp at hp
  | _ :: _, [], _, p, hp => by simp at hp
  | g :: gs, e :: es, h, p, hp => by
    simp only [sameShapeL, Bool.and_eq_true] at h
    simp only [List.zip_cons_cons, List.mem_cons] at hp
    rcases hp with rfl | hp
    · exact h.1
    · exact sameShapeL_zip env gs es h.2 p hp

theorem sameShapeF_forall (env : Env) : ∀ (fs gs : List (String × Value)),
    sameShapeF env fs gs = true →
    List.Forall₂ (fun p q => p.1 = q.1 ∧ sameShape env p.2 q.2 = true) fs gs
  | [], [], _ => .nil
  | [], _ :: _, h => by simp [sameShapeF] at h
  | _ :: _, [], h => by simp [sameShapeF] at h
  | (n, x) :: fs, (m, y) :: gs, h => by
    simp only [sameShapeF, Bool.and_eq_true, beq_iff_eq] at h
    exact .cons ⟨h.1.1, h.1.2⟩ (sameShapeF_forall env fs gs h.2)

theorem compareKinds_symm (env : Env) {cmp : Value → Value → Except Fault (List Mismatch)}
    (hc : ∀ x y, sameShape env x y = true → locations (cmp x y) = locations (cmp y x))
    (g e : Value) (h : sameShape env g e = true) :
    locations (compareKinds env cmp g e) = locations (compareKinds env cmp e g) := by
  cases g <;> cases e <;> simp only [sameShape, Bool.and_eq_true, beq_iff_eq, Bool.false_eq_true] at h <;>
    try (simp [compareKinds, isValid, sliceElems, structFields, locations, pure, Except.pure]; done)
  case bool.bool =>
    simp only [compareKinds, isValid, sliceElems, structFields, ne_eq, not_true_eq_false, if_false]
    exact coerce_symm env _ _ rfl
  case int64.int64 =>
    simp only [compareKinds, isValid, sliceElems, structFields, ne_eq, not_true_eq_false, if_false]
    exact coerce_symm env _ _ rfl
  case int8.int8 =>
    simp only [compareKinds, isValid, sliceElems, structFields, ne_eq, not_true_eq_false, if_false]
    exact coerce_symm env _ _ rfl
  case str.str =>
    simp only [compareKinds, isValid, sliceElems, structFields, ne_eq, not_true_eq_false, if_false]
    exact coerce_symm env _ _ rfl
  case time.time =>
    simp only [compareKinds, isValid, sliceElems, structFields, compareFields, bind, Except.bind,
      pure, Except.pure, ne_eq, not_true_eq_false, if_false, List.length_cons, List.length_nil,
      if_true, Bool.false_eq_true]
    exact coerce_symm env _ _ rfl
  case nilPtr.nilPtr =>
    subst h
    rfl
  case nilPtr.ptr =>
    subst h
    simp only [compareKinds, isValid, sliceElems, structFields, ne_eq, not_true_eq_false, if_false]
    exact coerce_symm env _ _ rfl
  case ptr.nilPtr =>
    subst h
    simp only [compareKinds, isValid, sliceElems, structFields, ne_eq, not_true_eq_false, if_false]
    exact coerce_symm env _ _ rfl
  case ptr.ptr =>
    obtain ⟨⟨h1, _⟩, _⟩ := h
    subst h1
    simp only [compareKinds, isValid, sliceElems, structFields, ne_eq, not_true_eq_false, if_false]
    exact coerce_symm env _ _ rfl
  case slice.slice n1 e1 nil1 xs n2 e2 nil2 ys =>
    obtain ⟨⟨⟨h1, h2⟩, _⟩, hl⟩ := h
    subst h1 h2
    simp only [compareKinds, isValid, sliceElems, sliceTypeName, ne_eq, not_true_eq_false, if_false]
    by_cases hlen : xs.length = ys.length
    · simp only [hlen, if_true]
      exact compareElems_symm n1 xs ys 0 (fun p hp => hc p.1 p.2 (sameShapeL_zip env xs ys hl p hp))
    · have hlen2 : ¬ ys.length = xs.length := fun h => hlen h.symm
      simp [hlen, hlen2, locations, pure, Except.pure]
  case struct.struct n1 fs n2 gs =>
    obtain ⟨⟨h1, _⟩, hf⟩ := h
    subst h1
    have hfa := sameShapeF_forall env fs gs hf
    have hlen : fs.length = gs.length := hfa.length_eq
    have hviews : List.Forall₂ (fun g e => g.name = e.name ∧ g.exported = e.exported ∧
        locations (cmp g.value e.value) = locations (cmp e.value g.value))
        (fs.map fun f => (⟨f.1, isExported env f.1, f.2⟩ : FieldView))
        (gs.map fun f => (⟨f.1, isExported env f.1, f.2⟩ : FieldView)) := by
      rw [List.forall₂_map_left_iff, List.forall₂_map_right_iff]
      exact hfa.imp (fun p q hpq => ⟨hpq.1, by rw [hpq.1], hc _ _ hpq.2⟩)
    have hsym := @compareFields_symm cmp _ _ hviews
    have hco := coerce_symm env (.struct n1 fs) (.struct n1 gs) rfl
    simp only [compareKinds, isValid, sliceElems, structFields, ne_eq, not_true_eq_false, if_false,
      List.length_map, hlen, if_true]
    revert hsym
    cases compareFields cmp (fs.map fun f => (⟨f.1, isExported env f.1, f.2⟩ : FieldView))
        (gs.map fun f => (⟨f.1, isExported env f.1, f.2⟩ : FieldView)) with
    | error f1 =>
      cases compareFields cmp (gs.map fun f => (⟨f.1, isExported env f.1, f.2⟩ : FieldView))
          (fs.map fun f => (⟨f.1, isExported env f.1, f.2⟩ : FieldView)) with
      | error f2 => intro _; rfl
      | ok r2 => intro hsym; simp [locationsF] at hsym
    | ok r1 =>
      cases compareFields cmp (gs.map fun f => (⟨f.1, isExported env f.1, f.2⟩ : FieldView))
          (fs.map fun f => (⟨f.1, isExported env f.1, f.2⟩ : FieldView)) with
      | error f2 => intro hsym; simp [locationsF] at hsym
      | ok r2 =>
        intro hsym
        simp only [locationsF, Option.some.injEq, Prod.mk.injEq] at hsym
        simp only [bind, Except.bind, hsym.2]
        cases r2.2
        · simpa using hco
        · simp [locations, pure, Except.pure, hsym.1]

theorem indirectInterface_toValue (d : DriverValue) :
    indirectInterface d.toValue = .ok d.toValue := by
  cases d <;> rfl

theorem sameShape_of_driver (env : Env) {r1 r2 : DriverValue} (h : sameDriverType r1 r2 = true) :
    sameShape env r1.toValue r2.toValue = true := by
  cases r1 <;> cases r2 <;> simp [sameDriverType] at h <;> simp [DriverValue.toValue, sameShape]

theorem unwrapOne_ptr (env : Env) (e : GoType) (a : Nat) (t : Value) :
    unwrapOne env (.ptr e a t) =
      match e.methodName.bind env.valuer with
      | some f => .ok (f t).toValue
      | none => .ok t := by
  unfold unwrapOne unwrapValuer
  simp only [valuerOf]
  cases e.methodName.bind env.valuer with
  | none => rfl
  | some f => exact indirectInterface_toValue _

theorem unwrapOne_slice (env : Env) (n : String) (e : GoType) (isNil : Bool) (xs : List Value) :
    unwrapOne env (.slice n e isNil xs) =
      match (GoType.slice n e).methodName.bind env.valuer with
      | some f => .ok (f (.slice n e isNil xs)).toValue
      | none => .ok (.slice n e isNil xs) := by
  unfold unwrapOne unwrapValuer
  simp only [valuerOf]
  cases (GoType.slice n e).methodName.bind env.valuer with
  | none => rfl
  | some f => exact indirectInterface_toValue _

theorem unwrapOne_struct (env : Env) (n : String) (fs : List (String × Value)) :
    unwrapOne env (.struct n fs) =
      match (GoType.struct n).methodName.bind env.valuer with
      | some f => .ok (f (.struct n fs)).toValue
      | none => .ok (.struct n fs) := by
  unfold unwrapOne unwrapValuer
  simp only [valuerOf]
  cases (GoType.struct n).methodName.bind env.valuer with
  | none => rfl
  | some f => exact indirectInterface_toValue _

theorem unwrapOne_nilPtr (env : Env) (e : GoType) (g : Value) :
    unwrapOne env (.nilPtr e) ≠ .ok g := by
  unfold unwrapOne unwrapValuer
  simp only [valuerOf]
  cases e.methodName.bind env.valuer with
  | none => simp [bind, Except.bind, indirectInterface]
  | some f => simp [bind, Except.bind, Except.map]

theorem unwrap_shape (env : Env) {a b g e : Value} (h : sameShape env a b = true)
    (hg : unwrapOne env a = .ok g) (he : unwrapOne env b = .ok e) :
    sameShape env g e = true := by
  cases a with
  | nil =>
    have : g = .nil := by
      simp [unwrapOne, unwrapValuer, valuerOf, indirectInterface, bind, Except.bind] at hg
      exact hg.symm
    subst this
    simp [sameShape]
  | nilPtr e1 => exact absurd hg (unwrapOne_nilPtr env e1 g)
  | ptr e1 a1 t1 =>
    cases b <;> simp only [sameShape, Bool.and_eq_true, beq_iff_eq, Bool.false_eq_true] at h
    case nil =>
      have : e = .nil := by
        simp [unwrapOne, unwrapValuer, valuerOf, indirectInterface, bind, Except.bind] at he
        exact he.symm
      subst this
      exact sameShape_nil_right env g
    case nilPtr e2 => exact absurd he (unwrapOne_nilPtr env e2 e)
    case ptr e2 a2 t2 =>
      obtain ⟨⟨h1, hr⟩, ht⟩ := h
      subst h1
      rw [unwrapOne_ptr] at hg he
      simp only [resultsAlike, valuerOf] at hr
      cases hv : e1.methodName.bind env.valuer with
      | none =>
        simp only [hv, Except.ok.injEq] at hg he
        subst hg he
        exact ht
      | some f =>
        simp only [hv, Except.ok.injEq] at hg he hr
        subst hg he
        exact sameShape_of_driver env hr
  | slice n1 e1 nil1 xs =>
    cases b <;> simp only [sameShape, Bool.and_eq_true, beq_iff_eq, Bool.false_eq_true] at h
    case nil =>
      have : e = .nil := by
        simp [unwrapOne, unwrapValuer, valuerOf, indirectInterface, bind, Except.bind] at he
        exact he.symm
      subst this
      exact sameShape_nil_right env g
    case slice n2 e2 nil2 ys =>
      obtain ⟨⟨⟨h1, h2⟩, hr⟩, hl⟩ := h
      subst h1 h2
      rw [unwrapOne_slice] at hg he
      simp only [resultsAlike, valuerOf] at hr
      cases hv : (GoType.slice n1 e1).methodName.bind env.valuer with
      | none =>
        simp only [hv, Except.ok.injEq] at hg he
        subst hg he
        simp [sameShape, resultsAlike, valuerOf, hv, hl]
      | some f =>
        simp only [hv, Except.ok.injEq] at hg he hr
        subst hg he
        exact sameShape_of_driver env hr
  | struct n1 fs =>
    cases b <;> simp only [sameShape, Bool.and_eq_true, beq_iff_eq, Bool.false_eq_true] at h
    case nil =>
      have : e = .nil := by
        simp [unwrapOne, unwrapValuer, valuerOf, indirectInterface, bind, Except.bind] at he
        exact he.symm
      subst this
      exact sameShape_nil_right env g
    case struct n2 gs =>
      obtain ⟨⟨h1, hr⟩, hf⟩ := h
      subst h1
      rw [unwrapOne_struct] at hg he
      simp only [resultsAlike, valuerOf] at hr
      cases hv : (GoType.struct n1).methodName.bind env.valuer with
      | none =>
        simp only [hv, Except.ok.injEq] at hg he
        subst hg he
        simp [sameShape, resultsAlike, valuerOf, hv, hf]
      | some f =>
        simp only [hv, Except.ok.injEq] at hg he hr
        subst hg he
        exact sameShape_of_driver env hr
  | _ =>
    simp only [unwrapOne, unwrapValuer, valuerOf, indirectInterface, bind, Except.bind,
      Except.ok.injEq] at hg
    subst hg
    cases b <;> simp only [sameShape, Bool.and_eq_true, beq_iff_eq, Bool.false_eq_true] at h <;>
      (simp [unwrapOne, unwrapValuer, valuerOf, indirectInterface, bind, Except.bind] at he
       subst he
       simp [sameShape])

theorem unwrapBoth_iff (env : Env) (a b g e : Value) :
    unwrapBoth env a b = .ok (g, e) ↔ unwrapOne env a = .ok g ∧ unwrapOne env b = .ok e := by
  constructor
  · intro h
    obtain ⟨g1, e1, h1, h2, h3, h4⟩ := unwrapBoth_ok h
    unfold unwrapOne
    rw [h1, h2]
    exact ⟨h3, h4⟩
  · intro ⟨h1, h2⟩
    unfold unwrapOne at h1 h2
    unfold unwrapBoth
    cases hg : unwrapValuer env a with
    | error f => rw [hg] at h1; cases h1
    | ok g1 =>
      cases he : unwrapValuer env b with
      | error f => rw [he] at h2; cases h2
      | ok e1 =>
        rw [hg] at h1
        rw [he] at h2
        simp only [bind, Except.bind] at h1 h2 ⊢
        rw [h1]
        simp only [h2]
        rfl

theorem unwrapBoth_swap_ok (env : Env) {a b g e : Value} (h : unwrapBoth env a b = .ok (g, e)) :
    unwrapBoth env b a = .ok (e, g) :=
  (unwrapBoth_iff env b a e g).mpr ((unwrapBoth_iff env a b g e).mp h).symm

theorem AssertEqualStep_symm (env : Env) {cmp : Value → Value → Except Fault (List Mismatch)}
    (hc : ∀ x y, sameShape env x y = true → locations (cmp x y) = locations (cmp y x))
    (a b : Value) (h : sameShape env a b = true) :
    locations (AssertEqualStep env cmp a b) = locations (AssertEqualStep env cmp b a) := by
  unfold AssertEqualStep
  rw [DeepEqual_symm b a]
  by_cases hd : DeepEqual a b = true
  · simp [hd]
  by_cases hs : Sprint env a = Sprint env b
  · simp [hd, hs]
  have hs2 : ¬ Sprint env b = Sprint env a := fun h => hs h.symm
  by_cases hv : indirectValid a = indirectValid b
  · simp only [hd, hs, hs2, hv, ne_eq, not_true_eq_false, if_false, Bool.false_eq_true]
    cases hu : unwrapBoth env a b with
    | error f =>
      cases hu2 : unwrapBoth env b a with
      | error f2 => rfl
      | ok p =>
        obtain ⟨e, g⟩ := p
        rw [unwrapBoth_swap_ok env hu2] at hu
        cases hu
    | ok p =>
      obtain ⟨g, e⟩ := p
      rw [unwrapBoth_swap_ok env hu]
      have hge := (unwrapBoth_iff env a b g e).mp hu
      exact compareKinds_symm env hc g e (unwrap_shape env h hge.1 hge.2)
  · have hv2 : ¬ indirectValid b = indirectValid a := fun h => hv h.symm
    simp [hd, hs, hs2, hv, hv2, locations]

theorem AssertEqualFuel_symm (env : Env) :
    ∀ (n : Nat) (a b : Value), sameShape env a b = true →
      locations (AssertEqualFuel env n a b) = locations (AssertEqualFuel env n b a)
  | 0, _, _, _ => rfl
  | n + 1, a, b, h => by
    simp only [AssertEqualFuel]
    exact AssertEqualStep_symm env (fun x y hxy => AssertEqualFuel_symm env n x y hxy) a b h

theorem AssertEqual_locations_symm (env : Env) (a b : Value) (h : sameShape env a b = true) :
    locations (AssertEqual env a b) = locations (AssertEqual env b a) := by
  unfold AssertEqual
  rw [AssertEqualFuel_stable env (a.depth + 1) (max a.depth b.depth + 1) a b (by omega) (by omega),
    AssertEqualFuel_stable env (b.depth + 1) (max a.depth b.depth + 1) b a (by omega) (by omega)]
  exact AssertEqualFuel_symm env _ a b h

/-- C3, as stated, fails: the fallback converts `got` to the type of `expect`
(line 124) and the conversion loses information.  `int8(44)` against
`int64(300)` is reported, `int64(300)` against `int8(44)` is not: 300 converted
to `int8` is 44. -/
theorem symmetry_counterexample :
    ReportsAt (AssertEqual sampleEnv (.int8 44) (.int64 300)) [] ∧
      ¬ ReportsAt (AssertEqual sampleEnv (.int64 300) (.int8 44)) [] ∧
      AssertEqual sampleEnv (.int64 300) (.int8 44) = .ok [] ∧
      AssertEqual sampleEnv (.int8 44) (.int64 300) ≠ .ok [] := by
  have h1 : AssertEqual sampleEnv (.int8 44) (.int64 300) = .ok [⟨[], .rendering⟩] := by decide
  have h2 : AssertEqual sampleEnv (.int64 300) (.int8 44) = .ok [] := by decide
  refine ⟨⟨_, h1, ⟨[], .rendering⟩, by simp, rfl⟩, ?_, h2, by rw [h1]; decide⟩
  rintro ⟨ms, hms, m, hm, _⟩
  rw [h2] at hms
  cases hms
  simp at hm

/-- C3 (amended): for values `a` and `b` of the same shape (the same types at
every position, so that the conversion fallback converts nothing),
`AssertEqual(a, b)` and `AssertEqual(b, a)` either both panic or report
mismatches at the same locations in the same order; hence a mismatch reported
by one at a location is reported by the other at that location, and one reports
no mismatch whenever the other reports none. -/
theorem symmetry_of_detection (env : Env) (a b : Value) (h : sameShape env a b = true) :
    locations (AssertEqual env a b) = locations (AssertEqual env b a) ∧
      (∀ p, ReportsAt (AssertEqual env a b) p → ReportsAt (AssertEqual env b a) p) ∧
      (AssertEqual env b a = .ok [] → AssertEqual env a b = .ok []) := by
  have hl := AssertEqual_locations_symm env a b h
  refine ⟨hl, ?_, ?_⟩
  · rintro p ⟨ms, hms, m, hm, hp⟩
    rw [hms] at hl
    cases hba : AssertEqual env b a with
    | error f => rw [hba] at hl; simp [locations] at hl
    | ok ms2 =>
      rw [hba] at hl
      simp only [locations, Option.some.injEq] at hl
      have hmem : p ∈ ms2.map Mismatch.path := by
        rw [← hl]
        exact List.mem_map.mpr ⟨m, hm, hp⟩
      obtain ⟨m2, hm2, hp2⟩ := List.mem_map.mp hmem
      exact ⟨ms2, rfl, m2, hm2, hp2⟩
  · intro hba
    rw [hba] at hl
    cases hab : AssertEqual env a b with
    | error f => rw [hab] at hl; simp [locations] at hl
    | ok ms =>
      rw [hab] at hl
      simp only [locations, Option.some.injEq, List.map_nil, List.map_eq_nil_iff] at hl
      rw [hl]

/-- Witness for C3: two `User` values that differ in `Name` and in the second
of their `Tags`; both argument orders report at `Name` and at `Tags #1`. -/
theorem symmetry_of_detection_witness :
    sameShape sampleEnv
        (.struct "User" [("Name", .str "x"), ("Tags", strings ["p", "q"])])
        (.struct "User" [("Name", .str "y"), ("Tags", strings ["p", "r"])]) = true ∧
      locations (AssertEqual sampleEnv
        (.struct "User" [("Name", .str "x"), ("Tags", strings ["p", "q"])])
        (.struct "User" [("Name", .str "y"), ("Tags", strings ["p", "r"])]))
        = some [["Name"], ["Tags", " #1"]] ∧
      locations (AssertEqual sampleEnv
        (.struct "User" [("Name", .str "y"), ("Tags", strings ["p", "r"])])
        (.struct "User" [("Name", .str "x"), ("Tags", strings ["p", "q"])]))
        = some [["Name"], ["Tags", " #1"]] := by
  have h := (symmetry_of_detection sampleEnv
    (.struct "User" [("Name", .str "x"), ("Tags", strings ["p", "q"])])
    (.struct "User" [("Name", .str "y"), ("Tags", strings ["p", "r"])]) (by decide)).1
  have h1 : locations (AssertEqual sampleEnv
      (.struct "User" [("Name", .str "x"), ("Tags", strings ["p", "q"])])
      (.struct "User" [("Name", .str "y"), ("Tags", strings ["p", "r"])]))
      = some [["Name"], ["Tags", " #1"]] := by decide
  exact ⟨by decide, h1, by rw [← h]; exact h1⟩

end Testutil
